import Mathlib

/-!
Verification development for the `ImageCompiler` class of
`@squirrel-forge/node-minify-images` (`src/classes/ImageCompiler.js`).

The class orchestrates an incremental image-optimization pipeline: it resolves
a source file set and a target directory, decides per file whether
re-optimization is needed via a persisted content-hash map, dispatches the
actual byte transformation to an external collaborator (`imagemin` with loaded
plugins), materializes target directories, writes outputs, and aggregates
statistics.

The embedding below mirrors the JavaScript source.  External collaborators
(the file system, `imagemin`, `file-type`, `crypto`, the `round` helper of
`@squirrel-forge/node-util`, and Node's `path` module) are modelled as
abstract parameters or as faithful Lean implementations for the normalized
relative-style paths that actually occur.  Ghost fields (`jobs`, `log`,
`cbCalls`, `writeCalls`, `attempts`, `mapWrite`) record events that the
JavaScript performs as side effects, so theorems can speak about them.
-/

namespace MinifyImages

/-- JavaScript error values as thrown by the class: either a plain
`Exception(msg)` or an `Exception(msg, previous)` chaining an underlying
cause, mirroring `@squirrel-forge/node-util`'s `Exception`. -/
inductive JsErr where
  | base (msg : String)
  | wrap (msg : String) (cause : JsErr)
deriving DecidableEq

/-- The in-memory fingerprint map `this._map`: a JavaScript object mapping
relative keys to hash strings.  A value of `none` models a property set to
`null`; absence from the list models an undefined property.  Insertion
updates in place (preserving key order) or appends, like a JS object. -/
def JsMap := List (String × Option String)
deriving DecidableEq

/-- Property lookup on a `JsMap`: `none` is JS `undefined` (absent),
`some v` is a present property with value `v`. -/
def mapGet : JsMap → String → Option (Option String)
  | [], _ => none
  | (k, v) :: rest, key => if k = key then some v else mapGet rest key

/-- Property assignment `m[key] = val` on a `JsMap`. -/
def mapSet : JsMap → String → Option String → JsMap
  | [], key, val => [(key, val)]
  | (k, v) :: rest, key, val =>
    if k = key then (key, val) :: rest else (k, v) :: mapSet rest key val

/-- JS strict equality `this._map[name] === data.hash`: an absent property
(`undefined`) is never strictly equal to `null` or to a string; a present
property compares by value. -/
def jsStrictEq : Option (Option String) → Option String → Bool
  | none, _ => false
  | some v, h => v == h

/-! ### Node `path` module, modelled on normalized relative-style paths

The class only ever feeds `path.dirname` / `basename` / `extname` / `join`
normalized, `/`-separated paths without trailing slashes, so the model
implements their documented behavior for those inputs, working directly on
the underlying character lists so that everything reduces in the kernel. -/

/-- Split a character list at `/` separators. -/
def splitSeg : List Char → List (List Char)
  | [] => [[]]
  | c :: rest =>
    match splitSeg rest with
    | [] => [[]]
    | s :: ss => if c = '/' then [] :: s :: ss else (c :: s) :: ss

/-- Rejoin segments with `/`. -/
def joinSegs : List (List Char) → List Char
  | [] => []
  | [s] => s
  | s :: rest => s ++ '/' :: joinSegs rest

/-- The final path segment (the basename without extension stripping). -/
def lastSeg (p : String) : List Char := (splitSeg p.data).getLastD []

/-- Suffix starting at the last `.` of a character list, if any. -/
def extAfterDot : List Char → Option (List Char)
  | [] => none
  | c :: rest =>
    match extAfterDot rest with
    | some s => some s
    | none => if c = '.' then some (c :: rest) else none

/-- Node `path.extname`: the suffix from the last dot of the basename, empty
when there is no dot or the only dot starts the basename. -/
def extname (p : String) : String :=
  match lastSeg p with
  | [] => ""
  | c0 :: rest =>
    if c0 = '.' then
      match extAfterDot rest with
      | some s => String.mk s
      | none => ""
    else
      match extAfterDot (c0 :: rest) with
      | some s => String.mk s
      | none => ""

/-- Node `path.basename(p, ext)`: the final segment, with a nonempty `ext`
suffix stripped unless it is the whole segment. -/
def basenameExt (p e : String) : String :=
  let b := lastSeg p
  if e.data ≠ [] ∧ b ≠ e.data ∧ e.data.isSuffixOf b then
    String.mk (b.take (b.length - e.data.length))
  else String.mk b

/-- Node `path.dirname` for relative-style paths. -/
def dirname (p : String) : String :=
  let segs := splitSeg p.data
  if segs.length ≤ 1 then "." else String.mk (joinSegs segs.dropLast)

/-- Node `path.join` of two normalized non-slash-terminated components. -/
def pathJoin (a b : String) : String :=
  if a = "" ∨ a = "." then b
  else if b = "" ∨ b = "." then a
  else String.mk (a.data ++ '/' :: b.data)

/-- Models `FsInterface.relative2root` of `@squirrel-forge/node-util`: the
path of `file` relative to `root` (the class always calls it on files lying
under the given root). -/
def relative2root (file root : String) : String :=
  if (root.data ++ ['/']).isPrefixOf file.data then
    String.mk (file.data.drop (root.data.length + 1))
  else if file = root then "" else file

/-- JS `s.substr(1)` on an ASCII string. -/
def strTail (s : String) : String := String.mk (s.data.drop 1)

/-! ### Data model -/

/-- Result of `_getPathData`: directory, extension-free name, extension and
full path of a file. -/
structure PathData where
  dir : String
  name : String
  ext : String
  path : String
deriving DecidableEq

/-- An `{ext, mime}` record as returned by the content-type detector. -/
structure TypeRec where
  ext : String
  mime : String
deriving DecidableEq

/-- The per-file job record built by `_getFileData` and mutated through the
pipeline.  Fields that JavaScript leaves undefined until assignment are
modelled as `Option`. -/
structure FileData where
  source_root : String
  target_root : String
  rel : String
  source : PathData
  target : PathData
  hash : Option String
  buffer : Option (List Nat)
  source_type : Option TypeRec
  target_type : Option TypeRec
  source_size : Option Nat
  target_size : Option Nat
  percent : Option Rat
deriving DecidableEq

/-- The relevant instance configuration: `this.options.map`,
`this.options.squash`, `this.options.mapName` and `this.strict`. -/
structure Config where
  map : Bool
  squash : Bool
  mapName : String
  strict : Bool

/-- The external collaborators: file-system interface, optimizer backend
(`imagemin.buffer` with the loaded plugins), content-type detector
(`file-type`), and the sha256 hex digest.  All are deterministic functions,
matching a file system that is not mutated concurrently during the run. -/
structure Env where
  read : String → Except JsErr (List Nat)
  fsExists : String → Bool
  isDir : String → Bool
  fileList : String → List String
  dirCreate : String → Except JsErr Bool
  write : String → List Nat → Bool
  readJSON : String → Except JsErr (Option JsMap)
  transform : List Nat → Except JsErr (List Nat)
  detect : List Nat → Option TypeRec
  hashFn : List Nat → String

/-- The source object returned by `_resolveSource`. -/
structure SourceObj where
  root : String
  source : String
  resolved : String
  files : List String

/-- The target object returned by `_resolveTarget`. -/
structure TargetObj where
  target : String
  resolved : String
  fsExists : Bool
  created : Option Bool

/-- `stats.size`. -/
structure SizeStats where
  source : Nat
  target : Nat
  percent : Rat
deriving DecidableEq

/-- `stats.dirs`. -/
structure DirStats where
  created : List String
  failed : List String
deriving DecidableEq

/-- The run statistics object. -/
structure Stats where
  sources : Nat
  processed : Nat
  written : Nat
  skipped : Nat
  size : SizeStats
  dirs : DirStats
  hashmap : Option String
deriving DecidableEq

/-- The optional before-write callback `callback(file, stats, this)`,
modelled by its boolean write decision. -/
def Cb := FileData → Stats → Bool

/-! ### The class methods -/

/-- `_resolveSource`: validates the (already resolved) source path and
produces the file list; `path.resolve` is modelled as the identity since the
theorems quantify over already-normalized paths. -/
def resolveSource (env : Env) (sourcePath : String) : Except JsErr SourceObj :=
  let resolved := sourcePath
  if ¬env.fsExists resolved then
    .error (JsErr.base ("Source not found: " ++ resolved))
  else if env.isDir resolved then
    let files := env.fileList resolved
    if files = [] then .error (JsErr.base ("Source is empty: " ++ resolved))
    else .ok { root := resolved, source := sourcePath, resolved := resolved, files := files }
  else
    .ok { root := dirname resolved, source := sourcePath, resolved := resolved,
          files := [resolved] }

/-- `_resolveTarget`: creates the target directory when absent, rejects
non-directory targets. -/
def resolveTarget (env : Env) (targetPath : String) : Except JsErr TargetObj :=
  let resolved := targetPath
  if ¬env.fsExists resolved then
    match env.dirCreate resolved with
    | .error e => .error e
    | .ok c =>
      if ¬c ∧ ¬env.isDir resolved then
        .error (JsErr.base ("Target must be a directory: " ++ resolved))
      else
        .ok { target := targetPath, resolved := resolved, fsExists := true, created := some c }
  else if ¬env.isDir resolved then
    .error (JsErr.base ("Target must be a directory: " ++ resolved))
  else
    .ok { target := targetPath, resolved := resolved, fsExists := true, created := none }

/-- `_getPathData(file, ext)`.  Callers pass `ext` as `null` or as a
nonempty `'.' + ext` string, so modelling the JS truthiness test on `ext` by
`Option` matching is exact. -/
def getPathData (file : String) (ext : Option String) : PathData :=
  let d := dirname file
  let n := basenameExt file (extname file)
  let e := match ext with | some x => x | none => extname file
  { dir := d, name := n, ext := e,
    path := match ext with | some _ => pathJoin d (n ++ e) | none => file }

/-- `_getFileData(file, source, target, ext)`. -/
def getFileData (file : String) (source : SourceObj) (target : TargetObj)
    (ext : Option String) : FileData :=
  let target_path := pathJoin target.resolved (relative2root file source.root)
  { source_root := source.root
  , target_root := target.resolved
  , rel := dirname (relative2root target_path target.resolved)
  , source := getPathData file none
  , target := getPathData target_path ext
  , hash := none, buffer := none, source_type := none, target_type := none
  , source_size := none, target_size := none, percent := none }

/-- The fingerprint key `path.join(data.rel, data.source.name + data.source.ext)`
built inside `_shouldOptimize`. -/
def mapKey (data : FileData) : String :=
  pathJoin data.rel (data.source.name ++ data.source.ext)

/-- `_shouldOptimize(data)`: the skip decision.  Returns the decision and the
updated in-memory map (the JS method mutates `this._map` in place). -/
def shouldOptimize (cfg : Config) (data : FileData) (m : JsMap) : Bool × JsMap :=
  if cfg.map then
    let name := mapKey data
    if jsStrictEq (mapGet m name) data.hash then (false, m)
    else (true, mapSet m name data.hash)
  else (true, m)

/-- The mime guess of the `switch` statement in `typeOfBuffer`. -/
def mimeGuess (e : String) : String :=
  if e = "jpg" then "image/jpeg"
  else if e = "svg" then "image/svg+xml"
  else "image/" ++ e

/-- `typeOfBuffer(buf, file)`: detector result, extension-derived fallback,
and the xml/svg normalization. -/
def typeOfBuffer (env : Env) (buf : List Nat) (file : FileData) : TypeRec :=
  let t : TypeRec :=
    match env.detect buf with
    | some t0 => t0
    | none =>
      let e := strTail file.source.ext
      { ext := e, mime := mimeGuess e }
  if t.ext = "xml" ∨ file.source.ext = ".svg" then
    { ext := "svg", mime := "image/svg+xml" }
  else t

/-- Result of `_optimizeFile`: the (in-place mutated) job record, stats and
map, and the exception propagated out of the method if any.  The record and
map keep the mutations performed before the throw, as in JavaScript. -/
structure OptRes where
  data : FileData
  stats : Stats
  map : JsMap
  err : Option JsErr
deriving DecidableEq

/-- `Math.round(x * 100) / 100` over the rationals (JS `Math.round` rounds
half toward positive infinity); also models `round` of
`@squirrel-forge/node-util` at its default precision of two decimals. -/
def round2 (q : Rat) : Rat := ((Int.floor (q * 100 + 1 / 2) : Int) : Rat) / 100

/-- The job record after the read phase of `_optimizeFile`: source type and
size recorded, and the sha256 hash when fingerprinting is enabled. -/
def readData (cfg : Config) (env : Env) (data0 : FileData) (buf : List Nat) : FileData :=
  let data1 := { data0 with
    source_type := some (typeOfBuffer env buf data0)
    source_size := some buf.length }
  if cfg.map then { data1 with hash := some (env.hashFn buf) } else data1

/-- The job record after a successful transform in `_optimizeFile`: output
buffer, size and type recorded, the target path recomputed with the new
extension when the output mime differs from the source mime, and the
rounded per-file compression percentage. -/
def transformedData (env : Env) (source : SourceObj) (target : TargetObj)
    (d2 : FileData) (buf out : List Nat) : FileData :=
  let tt := typeOfBuffer env out d2
  let d3 := { d2 with
    buffer := some out
    target_size := some out.length
    target_type := some tt }
  let d4 :=
    if d3.source_type.map TypeRec.mime ≠ d3.target_type.map TypeRec.mime then
      { d3 with
        target := (getFileData d3.source.path source target (some ("." ++ tt.ext))).target }
    else d3
  { d4 with
    percent := some (round2 ((100 : Rat) - (out.length : Rat) / (buf.length : Rat) * 100)) }

/-- `_optimizeFile(data, stats, source, target)`. -/
def optimizeFile (cfg : Config) (env : Env) (data0 : FileData) (stats : Stats)
    (m : JsMap) (source : SourceObj) (target : TargetObj) : OptRes :=
  match env.read data0.source.path with
  | .error e => ⟨data0, stats, m, some e⟩
  | .ok buf =>
    let data2 := readData cfg env data0 buf
    let dec := shouldOptimize cfg data2 m
    if dec.1 = false then
      ⟨data2, { stats with skipped := stats.skipped + 1 }, dec.2, none⟩
    else
      match env.transform buf with
      | .error e => ⟨data2, stats, dec.2, some e⟩
      | .ok out =>
        ⟨transformedData env source target data2 buf out,
         { stats with size := { stats.size with
             source := stats.size.source + buf.length
             target := stats.size.target + out.length } },
         dec.2, none⟩

/-- Result of `_requireDirectory`, with ghost fields: whether creation was
attempted, the exception thrown in strict mode, and the error reported on
the non-throwing channel in lenient mode. -/
structure ReqDirRes where
  available : Bool
  dirs : DirStats
  attempted : Bool
  thrown : Option JsErr
  logged : Option JsErr
deriving DecidableEq

/-- `_requireDirectory(require_dir, stats)`.  Note that only
`stats.dirs.created` is consulted before the existence check; the `failed`
list is written but never read. -/
def requireDirectory (cfg : Config) (env : Env) (dir : String) (dirs : DirStats) :
    ReqDirRes :=
  let ex := env.fsExists dir
  if ¬dirs.created.contains dir ∧ (¬ex ∨ ¬env.isDir dir) then
    match env.dirCreate dir with
    | .ok true =>
      { available := true, dirs := { dirs with created := dirs.created ++ [dir] },
        attempted := true, thrown := none, logged := none }
    | .ok false =>
      let e := JsErr.base ("Failed to create directory: " ++ dir)
      if cfg.strict then
        { available := false, dirs := dirs, attempted := true, thrown := some e, logged := none }
      else
        { available := false, dirs := { dirs with failed := dirs.failed ++ [dir] },
          attempted := true, thrown := none, logged := some e }
    | .error er =>
      let e := JsErr.wrap ("Failed to create directory: " ++ dir) er
      if cfg.strict then
        { available := false, dirs := dirs, attempted := true, thrown := some e, logged := none }
      else
        { available := false, dirs := { dirs with failed := dirs.failed ++ [dir] },
          attempted := true, thrown := none, logged := some e }
  else
    { available := true, dirs := dirs, attempted := false, thrown := none, logged := none }

/-- `_loadMap(source)`: returns the map path (when fingerprinting is on),
the loaded map, and lenient-mode reports; throws in strict mode when the map
file exists but cannot be read. -/
def loadMap (cfg : Config) (env : Env) (source : SourceObj) (m0 : JsMap) :
    Except JsErr (Option String × JsMap × List JsErr) :=
  if cfg.map then
    let mapPath := pathJoin source.root cfg.mapName
    if ¬cfg.squash ∧ env.fsExists mapPath then
      match env.readJSON mapPath with
      | .error e =>
        let we := JsErr.wrap ("Failed to read hashmap at: " ++ mapPath) e
        if cfg.strict then .error we else .ok (some mapPath, m0, [we])
      | .ok (some mp) => .ok (some mapPath, mp, [])
      | .ok none => .ok (some mapPath, m0, [])
    else .ok (some mapPath, m0, [])
  else .ok (none, m0, [])

/-- The mutable state threaded through the file loop of `run`, with ghost
event lists: the final job record of every file processed so far (`jobs`),
the errors passed to the console-like reporter in lenient mode (`log`), the
files for which the callback was invoked (`cbCalls`), every `fs.write` call
of the loop as `(source file, target path, success)` (`writeCalls`), and
every `fs.dir` creation attempt of `_requireDirectory` (`attempts`). -/
structure LoopState where
  stats : Stats
  map : JsMap
  jobs : List FileData
  log : List JsErr
  cbCalls : List String
  writeCalls : List (String × String × Bool)
  attempts : List String
deriving DecidableEq

/-- The write of one file: `fs.write(file.target.path, file.buffer)` plus the
surrounding error handling (tail of the loop body of `run`). -/
def doWrite (cfg : Config) (env : Env) (st : LoopState) (fp : String) (file : FileData)
    (stats : Stats) (m : JsMap) (log : List JsErr) (cbc : List String)
    (att : List String) : Except JsErr LoopState :=
  let bb := file.buffer.getD []
  let wrote := env.write file.target.path bb
  let wc := st.writeCalls ++ [(fp, file.target.path, wrote)]
  if wrote = false then
    let e := JsErr.base ("Failed to write: " ++ file.target.path)
    if cfg.strict then .error e
    else .ok ⟨stats, m, st.jobs ++ [file], log ++ [e], cbc, wc, att⟩
  else
    .ok ⟨{ stats with written := stats.written + 1 }, m, st.jobs ++ [file], log, cbc, wc, att⟩

/-- The part of the loop body of `run` following the try/catch around
`_optimizeFile`: write-decision callback, skip gate, directory
materialization and write. -/
def afterOpt (cfg : Config) (env : Env) (cb : Option Cb) (st : LoopState) (fp : String)
    (file : FileData) (stats : Stats) (m : JsMap) (log : List JsErr) :
    Except JsErr LoopState :=
  let write0 := match cb with | some g => g file stats | none => true
  let cbc := match cb with | some _ => st.cbCalls ++ [fp] | none => st.cbCalls
  if write0 = false ∨ file.buffer = none then
    .ok ⟨stats, m, st.jobs ++ [file], log, cbc, st.writeCalls, st.attempts⟩
  else
    let reqDir := pathJoin file.target_root file.rel
    if file.rel ≠ "." then
      let rd := requireDirectory cfg env reqDir stats.dirs
      let att := if rd.attempted then st.attempts ++ [reqDir] else st.attempts
      match rd.thrown with
      | some e => .error e
      | none =>
        let stats2 := { stats with dirs := rd.dirs }
        let log2 := log ++ rd.logged.toList
        if rd.available = false then
          .ok ⟨stats2, m, st.jobs ++ [file], log2, cbc, st.writeCalls, att⟩
        else doWrite cfg env st fp file stats2 m log2 cbc att
    else doWrite cfg env st fp file stats m log cbc st.attempts

/-- One iteration of the file loop of `run`: build the job record, run
`_optimizeFile` under try/catch (throwing the wrapped exception in strict
mode, reporting it in lenient mode), count `processed`, then `afterOpt`. -/
def stepFile (cfg : Config) (env : Env) (source : SourceObj) (target : TargetObj)
    (cb : Option Cb) (st : LoopState) (fp : String) : Except JsErr LoopState :=
  let file0 := getFileData fp source target none
  let r := optimizeFile cfg env file0 st.stats st.map source target
  match r.err with
  | some e =>
    let we := JsErr.wrap ("Optimize failed for: " ++ fp) e
    if cfg.strict then .error we
    else afterOpt cfg env cb st fp r.data r.stats r.map (st.log ++ [we])
  | none =>
    let stats1 :=
      if r.data.buffer.isSome then { r.stats with processed := r.stats.processed + 1 }
      else r.stats
    afterOpt cfg env cb st fp r.data stats1 r.map st.log

/-- The file loop of `run`. -/
def runFiles (cfg : Config) (env : Env) (source : SourceObj) (target : TargetObj)
    (cb : Option Cb) : LoopState → List String → Except JsErr LoopState
  | st, [] => .ok st
  | st, fp :: rest =>
    match stepFile cfg env source target cb st fp with
    | .error e => .error e
    | .ok st' => runFiles cfg env source target cb st' rest

/-- The final result of `run`, with the ghost event fields of `LoopState`
plus the end-of-run hashmap write `(path, persisted map)` when performed. -/
structure RunResult where
  stats : Stats
  map : JsMap
  jobs : List FileData
  log : List JsErr
  cbCalls : List String
  writeCalls : List (String × String × Bool)
  attempts : List String
  mapWrite : Option (String × JsMap)
deriving DecidableEq

/-- The initial loop state of `run`: the zeroed stats object (with
`sources` set to the file count and `hashmap` to the resolved map path),
the loaded map, and empty ghost event lists. -/
def initState (source : SourceObj) (hm : Option String) (m1 : JsMap)
    (log0 : List JsErr) : LoopState :=
  { stats := { sources := source.files.length, processed := 0, written := 0, skipped := 0
             , size := { source := 0, target := 0, percent := 0 }
             , dirs := { created := [], failed := [] }, hashmap := hm }
  , map := m1, jobs := [], log := log0, cbCalls := [], writeCalls := [], attempts := [] }

/-- `run(source, target, callback)`.  `m0` is the in-memory map `this._map`
at entry (empty for a fresh instance).  Plugin-configuration loading and
plugin loading are abstracted into `env.transform`, which stands for
`imagemin.buffer` with whatever plugins were loaded; they touch nothing the
theorems below speak about. -/
def run (cfg : Config) (env : Env) (sourcePath targetPath : String) (cb : Option Cb)
    (m0 : JsMap) : Except JsErr RunResult :=
  match resolveSource env sourcePath with
  | .error e => .error e
  | .ok source =>
    match resolveTarget env targetPath with
    | .error e => .error e
    | .ok target =>
      match loadMap cfg env source m0 with
      | .error e => .error e
      | .ok (hm, m1, log0) =>
        match runFiles cfg env source target cb (initState source hm m1 log0)
            source.files with
        | .error e => .error e
        | .ok st =>
          let mw := if cfg.map ∧ st.stats.hashmap.isSome then
              st.stats.hashmap.map (fun p => (p, st.map))
            else none
          let sz := st.stats.size
          let pc := if sz.source ≠ 0 ∧ sz.target ≠ 0 then
              round2 (100 - (sz.target : Rat) / (sz.source : Rat) * 100)
            else sz.percent
          .ok { stats := { st.stats with size := { sz with percent := pc } }
              , map := st.map, jobs := st.jobs, log := st.log, cbCalls := st.cbCalls
              , writeCalls := st.writeCalls, attempts := st.attempts, mapWrite := mw }

/-- Contribution of a finished job record to `stats.size.source`: only jobs
whose transform produced an output buffer were accumulated. -/
def srcContrib (j : FileData) : Nat := if j.buffer.isSome then j.source_size.getD 0 else 0

/-- Contribution of a finished job record to `stats.size.target`. -/
def tgtContrib (j : FileData) : Nat := if j.buffer.isSome then j.target_size.getD 0 else 0

/-- Whether a directory can be made available, as a function of the
(deterministic) environment only: it already exists as a directory, or
creation succeeds. -/
def dirAvailable (env : Env) (d : String) : Bool :=
  (env.fsExists d && env.isDir d) ||
    (match env.dirCreate d with | .ok true => true | _ => false)

/-- The callback-invocation ghost list after one file. -/
def cbCallsAfter (cb : Option Cb) (calls : List String) (fp : String) : List String :=
  match cb with | some _ => calls ++ [fp] | none => calls

/-! ### Basic lemmas about the map operations and the skip decision -/

theorem mapGet_mapSet_self (m : JsMap) (k : String) (v : Option String) :
    mapGet (mapSet m k v) k = some v := by
  induction m with
  | nil => simp [mapSet, mapGet]
  | cons p rest ih =>
    obtain ⟨k', v'⟩ := p
    by_cases h : k' = k
    · simp [mapSet, mapGet, h]
    · simp [mapSet, mapGet, h, ih]

theorem mapGet_mapSet_ne (m : JsMap) (k k' : String) (v : Option String)
    (h : k' ≠ k) : mapGet (mapSet m k v) k' = mapGet m k' := by
  induction m with
  | nil => simp [mapSet, mapGet, Ne.symm h]
  | cons p rest ih =>
    obtain ⟨ka, va⟩ := p
    by_cases hk : ka = k
    · subst hk
      simp [mapSet, mapGet, Ne.symm h]
    · by_cases hk' : ka = k'
      · simp [mapSet, mapGet, hk, hk', h]
      · simp [mapSet, mapGet, hk, hk', ih]

theorem shouldOptimize_off (cfg : Config) (d : FileData) (m : JsMap)
    (h : cfg.map = false) : shouldOptimize cfg d m = (true, m) := by
  simp [shouldOptimize, h]

theorem shouldOptimize_hit (cfg : Config) (d : FileData) (m : JsMap)
    (h : cfg.map = true) (hh : jsStrictEq (mapGet m (mapKey d)) d.hash = true) :
    shouldOptimize cfg d m = (false, m) := by
  simp [shouldOptimize, h, hh]

theorem shouldOptimize_miss (cfg : Config) (d : FileData) (m : JsMap)
    (h : cfg.map = true) (hh : jsStrictEq (mapGet m (mapKey d)) d.hash = false) :
    shouldOptimize cfg d m = (true, mapSet m (mapKey d) d.hash) := by
  simp [shouldOptimize, h, hh]

/-! ### Case lemmas for `_requireDirectory` -/

/-- The entry condition of `_requireDirectory`, in the exact form of the
`if` in its body. -/
abbrev reqDirCond (env : Env) (d : String) (dirs : DirStats) : Prop :=
  ¬dirs.created.contains d = true ∧ (¬env.fsExists d = true ∨ ¬env.isDir d = true)

theorem reqDirCond_of (env : Env) (d : String) (dirs : DirStats)
    (hc : dirs.created.contains d = false)
    (hnd : ¬(env.fsExists d = true ∧ env.isDir d = true)) :
    reqDirCond env d dirs := by
  refine ⟨by simpa using hc, ?_⟩
  by_cases h1 : env.fsExists d = true
  · exact Or.inr (fun h2 => hnd ⟨h1, h2⟩)
  · exact Or.inl h1

theorem reqDir_memo (cfg : Config) (env : Env) (d : String) (dirs : DirStats)
    (h : dirs.created.contains d = true ∨ (env.fsExists d = true ∧ env.isDir d = true)) :
    requireDirectory cfg env d dirs =
      { available := true, dirs := dirs, attempted := false, thrown := none, logged := none } := by
  have hcond : ¬reqDirCond env d dirs := by
    rcases h with h | ⟨h1, h2⟩
    · exact fun hcc => hcc.1 h
    · rintro ⟨-, hor⟩
      rcases hor with h' | h'
      · exact h' h1
      · exact h' h2
  unfold requireDirectory
  rw [if_neg hcond]

theorem reqDir_create_ok (cfg : Config) (env : Env) (d : String) (dirs : DirStats)
    (hc : dirs.created.contains d = false)
    (hnd : ¬(env.fsExists d = true ∧ env.isDir d = true))
    (hok : env.dirCreate d = .ok true) :
    requireDirectory cfg env d dirs =
      { available := true, dirs := { dirs with created := dirs.created ++ [d] },
        attempted := true, thrown := none, logged := none } := by
  unfold requireDirectory
  rw [if_pos (reqDirCond_of env d dirs hc hnd), hok]

theorem reqDir_fail_lenient (cfg : Config) (env : Env) (d : String) (dirs : DirStats)
    (hs : cfg.strict = false)
    (hc : dirs.created.contains d = false)
    (hnd : ¬(env.fsExists d = true ∧ env.isDir d = true))
    (hfail : env.dirCreate d = .ok false ∨ ∃ er, env.dirCreate d = .error er) :
    (requireDirectory cfg env d dirs).available = false ∧
    (requireDirectory cfg env d dirs).dirs =
      { dirs with failed := dirs.failed ++ [d] } ∧
    (requireDirectory cfg env d dirs).attempted = true ∧
    (requireDirectory cfg env d dirs).thrown = none ∧
    (requireDirectory cfg env d dirs).logged ≠ none := by
  unfold requireDirectory
  rcases hfail with hf | ⟨er, hf⟩ <;>
    rw [if_pos (reqDirCond_of env d dirs hc hnd), hf] <;> simp [hs]

theorem reqDir_fail_strict (cfg : Config) (env : Env) (d : String) (dirs : DirStats)
    (hs : cfg.strict = true)
    (hc : dirs.created.contains d = false)
    (hnd : ¬(env.fsExists d = true ∧ env.isDir d = true))
    (hfail : env.dirCreate d = .ok false ∨ ∃ er, env.dirCreate d = .error er) :
    (requireDirectory cfg env d dirs).thrown ≠ none ∧
    (requireDirectory cfg env d dirs).dirs = dirs := by
  unfold requireDirectory
  rcases hfail with hf | ⟨er, hf⟩ <;>
    rw [if_pos (reqDirCond_of env d dirs hc hnd), hf] <;> simp [hs]

/-- In lenient mode `_requireDirectory` never throws. -/
theorem reqDir_lenient_no_throw (cfg : Config) (env : Env) (d : String) (dirs : DirStats)
    (hs : cfg.strict = false) :
    (requireDirectory cfg env d dirs).thrown = none := by
  unfold requireDirectory
  by_cases hcond : reqDirCond env d dirs
  · rw [if_pos hcond]
    cases hdc : env.dirCreate d with
    | ok b => cases b <;> simp [hs]
    | error er => simp [hs]
  · rw [if_neg hcond]

/-- Availability is determined by the environment alone, as long as every
directory recorded as created was in fact created successfully.  In
particular the `failed` list is never consulted. -/
theorem reqDir_available_char (cfg : Config) (env : Env) (d : String) (dirs : DirStats)
    (hinv : ∀ c ∈ dirs.created, env.dirCreate c = .ok true) :
    (requireDirectory cfg env d dirs).available = dirAvailable env d := by
  by_cases hmem : dirs.created.contains d = true
  · have hd := hinv d (by simpa using hmem)
    rw [reqDir_memo cfg env d dirs (Or.inl hmem)]
    simp [dirAvailable, hd]
  · have hc : dirs.created.contains d = false := by
      cases hx : dirs.created.contains d
      · rfl
      · exact absurd hx hmem
    by_cases hex : env.fsExists d = true ∧ env.isDir d = true
    · rw [reqDir_memo cfg env d dirs (Or.inr hex)]
      simp [dirAvailable, hex.1, hex.2]
    · have hab : (env.fsExists d && env.isDir d) = false := by
        cases ha : env.fsExists d
        · rfl
        · cases hb : env.isDir d
          · rfl
          · exact absurd ⟨ha, hb⟩ hex
      unfold requireDirectory
      rw [if_pos (reqDirCond_of env d dirs hc hex)]
      cases hdc : env.dirCreate d with
      | ok b =>
        cases b
        · by_cases hst : cfg.strict = true <;> simp [hst, dirAvailable, hab, hdc]
        · simp [dirAvailable, hab, hdc]
      | error er =>
        by_cases hst : cfg.strict = true <;> simp [hst, dirAvailable, hab, hdc]

/-- The `created` record only grows with successfully created directories. -/
theorem reqDir_created_inv (cfg : Config) (env : Env) (d : String) (dirs : DirStats)
    (hinv : ∀ c ∈ dirs.created, env.dirCreate c = .ok true) :
    ∀ c ∈ (requireDirectory cfg env d dirs).dirs.created, env.dirCreate c = .ok true := by
  by_cases hmem : dirs.created.contains d = true
  · rw [reqDir_memo cfg env d dirs (Or.inl hmem)]
    exact hinv
  · have hc : dirs.created.contains d = false := by
      cases hx : dirs.created.contains d
      · rfl
      · exact absurd hx hmem
    by_cases hex : env.fsExists d = true ∧ env.isDir d = true
    · rw [reqDir_memo cfg env d dirs (Or.inr hex)]
      exact hinv
    · unfold requireDirectory
      rw [if_pos (reqDirCond_of env d dirs hc hex)]
      cases hdc : env.dirCreate d with
      | ok b =>
        cases b
        · by_cases hst : cfg.strict = true <;> simp [hst] <;> exact fun c hcm => hinv c hcm
        · simp
          intro c hcm
          rcases hcm with hcm | hcm
          · exact hinv c hcm
          · subst hcm; exact hdc
      | error er =>
        by_cases hst : cfg.strict = true <;> simp [hst] <;> exact fun c hcm => hinv c hcm

/-! ### Field lemmas for the `_optimizeFile` stages -/

theorem readData_buffer (cfg : Config) (env : Env) (d : FileData) (b : List Nat) :
    (readData cfg env d b).buffer = d.buffer := by
  unfold readData
  by_cases h : cfg.map = true <;> simp [h]

theorem readData_source_size (cfg : Config) (env : Env) (d : FileData) (b : List Nat) :
    (readData cfg env d b).source_size = some b.length := by
  unfold readData
  by_cases h : cfg.map = true <;> simp [h]

theorem readData_rel (cfg : Config) (env : Env) (d : FileData) (b : List Nat) :
    (readData cfg env d b).rel = d.rel := by
  unfold readData
  by_cases h : cfg.map = true <;> simp [h]

theorem readData_source (cfg : Config) (env : Env) (d : FileData) (b : List Nat) :
    (readData cfg env d b).source = d.source := by
  unfold readData
  by_cases h : cfg.map = true <;> simp [h]

theorem readData_target (cfg : Config) (env : Env) (d : FileData) (b : List Nat) :
    (readData cfg env d b).target = d.target := by
  unfold readData
  by_cases h : cfg.map = true <;> simp [h]

theorem readData_target_root (cfg : Config) (env : Env) (d : FileData) (b : List Nat) :
    (readData cfg env d b).target_root = d.target_root := by
  unfold readData
  by_cases h : cfg.map = true <;> simp [h]

theorem readData_hash_on (cfg : Config) (env : Env) (d : FileData) (b : List Nat)
    (h : cfg.map = true) : (readData cfg env d b).hash = some (env.hashFn b) := by
  simp [readData, h]

theorem readData_mapKey (cfg : Config) (env : Env) (d : FileData) (b : List Nat) :
    mapKey (readData cfg env d b) = mapKey d := by
  unfold mapKey
  rw [readData_rel, readData_source]

theorem transformedData_buffer (env : Env) (source : SourceObj) (target : TargetObj)
    (d2 : FileData) (buf out : List Nat) :
    (transformedData env source target d2 buf out).buffer = some out := by
  unfold transformedData
  dsimp only
  split <;> simp

theorem transformedData_source_size (env : Env) (source : SourceObj) (target : TargetObj)
    (d2 : FileData) (buf out : List Nat) :
    (transformedData env source target d2 buf out).source_size = d2.source_size := by
  unfold transformedData
  dsimp only
  split <;> simp

theorem transformedData_target_size (env : Env) (source : SourceObj) (target : TargetObj)
    (d2 : FileData) (buf out : List Nat) :
    (transformedData env source target d2 buf out).target_size = some out.length := by
  unfold transformedData
  dsimp only
  split <;> simp

theorem transformedData_rel (env : Env) (source : SourceObj) (target : TargetObj)
    (d2 : FileData) (buf out : List Nat) :
    (transformedData env source target d2 buf out).rel = d2.rel := by
  unfold transformedData
  dsimp only
  split <;> simp

theorem transformedData_source (env : Env) (source : SourceObj) (target : TargetObj)
    (d2 : FileData) (buf out : List Nat) :
    (transformedData env source target d2 buf out).source = d2.source := by
  unfold transformedData
  dsimp only
  split <;> simp

theorem transformedData_mapKey (env : Env) (source : SourceObj) (target : TargetObj)
    (d2 : FileData) (buf out : List Nat) :
    mapKey (transformedData env source target d2 buf out) = mapKey d2 := by
  unfold mapKey
  rw [transformedData_rel, transformedData_source]

/-- Field accounting of `_optimizeFile` relative to its inputs, for a fresh
job record (as built by `_getFileData`, whose `buffer` is `null`). -/
theorem optimizeFile_fields (cfg : Config) (env : Env) (data0 : FileData) (stats : Stats)
    (m : JsMap) (source : SourceObj) (target : TargetObj) (r : OptRes)
    (hb0 : data0.buffer = none)
    (hr : optimizeFile cfg env data0 stats m source target = r) :
    r.stats.sources = stats.sources ∧
    r.stats.hashmap = stats.hashmap ∧
    r.stats.written = stats.written ∧
    r.stats.processed = stats.processed ∧
    r.stats.dirs = stats.dirs ∧
    r.stats.size.percent = stats.size.percent ∧
    (r.err ≠ none → r.stats = stats ∧ r.data.buffer = none) ∧
    (r.data.buffer = none →
       r.stats.size = stats.size ∧ r.stats.skipped ≤ stats.skipped + 1) ∧
    (r.err = none → r.data.buffer ≠ none →
       r.stats.skipped = stats.skipped ∧
       r.stats.size.source = stats.size.source + r.data.source_size.getD 0 ∧
       r.stats.size.target = stats.size.target + r.data.target_size.getD 0) := by
  subst hr
  unfold optimizeFile
  cases hread : env.read data0.source.path with
  | error e => simp [hb0]
  | ok buf =>
    by_cases hdec : (shouldOptimize cfg (readData cfg env data0 buf) m).1 = false
    · simp [hdec, readData_buffer, hb0]
    · simp only [hdec, if_false]
      cases htr : env.transform buf with
      | error e => simp [readData_buffer, hb0]
      | ok out =>
        simp [transformedData_buffer, transformedData_source_size,
          transformedData_target_size, readData_source_size]

/-! ### Case lemmas for the write phase of the loop body -/

theorem doWrite_ok (cfg : Config) (env : Env) (st : LoopState) (fp : String)
    (file : FileData) (stats : Stats) (m : JsMap) (log : List JsErr)
    (cbc : List String) (att : List String)
    (hw : env.write file.target.path (file.buffer.getD []) = true) :
    doWrite cfg env st fp file stats m log cbc att =
      .ok ⟨{ stats with written := stats.written + 1 }, m, st.jobs ++ [file], log, cbc,
           st.writeCalls ++ [(fp, file.target.path, true)], att⟩ := by
  unfold doWrite
  simp [hw]

theorem doWrite_fail_lenient (cfg : Config) (env : Env) (st : LoopState) (fp : String)
    (file : FileData) (stats : Stats) (m : JsMap) (log : List JsErr)
    (cbc : List String) (att : List String)
    (hs : cfg.strict = false)
    (hw : env.write file.target.path (file.buffer.getD []) = false) :
    doWrite cfg env st fp file stats m log cbc att =
      .ok ⟨stats, m, st.jobs ++ [file],
           log ++ [JsErr.base ("Failed to write: " ++ file.target.path)], cbc,
           st.writeCalls ++ [(fp, file.target.path, false)], att⟩ := by
  unfold doWrite
  simp [hw, hs]

theorem doWrite_fail_strict (cfg : Config) (env : Env) (st : LoopState) (fp : String)
    (file : FileData) (stats : Stats) (m : JsMap) (log : List JsErr)
    (cbc : List String) (att : List String)
    (hs : cfg.strict = true)
    (hw : env.write file.target.path (file.buffer.getD []) = false) :
    doWrite cfg env st fp file stats m log cbc att =
      .error (JsErr.base ("Failed to write: " ++ file.target.path)) := by
  unfold doWrite
  simp [hw, hs]

/-- The gate `if (!write || !file || !file.buffer) continue`: files without
an output buffer, and files vetoed by the callback, are passed over without
any directory or write activity. -/
theorem afterOpt_skip_gate (cfg : Config) (env : Env) (cb : Option Cb) (st : LoopState)
    (fp : String) (file : FileData) (stats : Stats) (m : JsMap) (log : List JsErr)
    (h : (match cb with | some g => g file stats | none => true) = false ∨
         file.buffer = none) :
    afterOpt cfg env cb st fp file stats m log =
      .ok ⟨stats, m, st.jobs ++ [file], log, cbCallsAfter cb st.cbCalls fp,
           st.writeCalls, st.attempts⟩ := by
  unfold afterOpt
  cases cb with
  | none =>
    rcases h with h | h
    · exact absurd h (by simp)
    · simp [h, cbCallsAfter]
  | some g =>
    replace h : g file stats = false ∨ file.buffer = none := h
    rcases h with h | h <;> simp [h, cbCallsAfter]

/-- When the gate passes and the file sits at the run root, the loop goes
straight to the write. -/
theorem afterOpt_root (cfg : Config) (env : Env) (cb : Option Cb) (st : LoopState)
    (fp : String) (file : FileData) (stats : Stats) (m : JsMap) (log : List JsErr)
    (hgate : (match cb with | some g => g file stats | none => true) = true)
    (hbuf : file.buffer ≠ none)
    (hrel : file.rel = ".") :
    afterOpt cfg env cb st fp file stats m log =
      doWrite cfg env st fp file stats m log (cbCallsAfter cb st.cbCalls fp) st.attempts := by
  unfold afterOpt
  cases cb with
  | none =>
    dsimp only
    rw [if_neg (by simp [hbuf])]
    rw [if_neg (by simp [hrel])]
    rfl
  | some g =>
    replace hgate : g file stats = true := hgate
    dsimp only
    rw [if_neg (by simp [hgate, hbuf])]
    rw [if_neg (by simp [hrel])]
    rfl

/-- When the gate passes and the file lies in a subdirectory, the loop runs
`_requireDirectory` first. -/
theorem afterOpt_dir (cfg : Config) (env : Env) (cb : Option Cb) (st : LoopState)
    (fp : String) (file : FileData) (stats : Stats) (m : JsMap) (log : List JsErr)
    (hgate : (match cb with | some g => g file stats | none => true) = true)
    (hbuf : file.buffer ≠ none)
    (hrel : file.rel ≠ ".") :
    afterOpt cfg env cb st fp file stats m log =
      (let rd := requireDirectory cfg env (pathJoin file.target_root file.rel) stats.dirs
       let att := if rd.attempted then st.attempts ++ [pathJoin file.target_root file.rel]
                  else st.attempts
       match rd.thrown with
       | some e => .error e
       | none =>
         if rd.available = false then
           .ok ⟨{ stats with dirs := rd.dirs }, m, st.jobs ++ [file],
                log ++ rd.logged.toList, cbCallsAfter cb st.cbCalls fp, st.writeCalls, att⟩
         else
           doWrite cfg env st fp file { stats with dirs := rd.dirs } m
             (log ++ rd.logged.toList) (cbCallsAfter cb st.cbCalls fp) att) := by
  unfold afterOpt
  cases cb with
  | none =>
    dsimp only
    rw [if_neg (by simp [hbuf])]
    rw [if_pos hrel]
    rfl
  | some g =>
    replace hgate : g file stats = true := hgate
    dsimp only
    rw [if_neg (by simp [hgate, hbuf])]
    rw [if_pos hrel]
    rfl

/-! ### Case lemmas for one loop iteration -/

theorem stepFile_err_strict (cfg : Config) (env : Env) (source : SourceObj)
    (target : TargetObj) (cb : Option Cb) (st : LoopState) (fp : String) (e : JsErr)
    (hs : cfg.strict = true)
    (he : (optimizeFile cfg env (getFileData fp source target none)
            st.stats st.map source target).err = some e) :
    stepFile cfg env source target cb st fp =
      .error (JsErr.wrap ("Optimize failed for: " ++ fp) e) := by
  unfold stepFile
  dsimp only
  rw [he]
  simp [hs]

theorem stepFile_err_lenient (cfg : Config) (env : Env) (source : SourceObj)
    (target : TargetObj) (cb : Option Cb) (st : LoopState) (fp : String) (e : JsErr)
    (hs : cfg.strict = false)
    (he : (optimizeFile cfg env (getFileData fp source target none)
            st.stats st.map source target).err = some e) :
    stepFile cfg env source target cb st fp =
      afterOpt cfg env cb st fp
        (optimizeFile cfg env (getFileData fp source target none)
          st.stats st.map source target).data
        (optimizeFile cfg env (getFileData fp source target none)
          st.stats st.map source target).stats
        (optimizeFile cfg env (getFileData fp source target none)
          st.stats st.map source target).map
        (st.log ++ [JsErr.wrap ("Optimize failed for: " ++ fp) e]) := by
  unfold stepFile
  dsimp only
  rw [he]
  simp [hs]

theorem stepFile_ok_case (cfg : Config) (env : Env) (source : SourceObj)
    (target : TargetObj) (cb : Option Cb) (st : LoopState) (fp : String)
    (he : (optimizeFile cfg env (getFileData fp source target none)
            st.stats st.map source target).err = none) :
    stepFile cfg env source target cb st fp =
      afterOpt cfg env cb st fp
        (optimizeFile cfg env (getFileData fp source target none)
          st.stats st.map source target).data
        (if (optimizeFile cfg env (getFileData fp source target none)
              st.stats st.map source target).data.buffer.isSome then
           { (optimizeFile cfg env (getFileData fp source target none)
               st.stats st.map source target).stats with
             processed := (optimizeFile cfg env (getFileData fp source target none)
               st.stats st.map source target).stats.processed + 1 }
         else
           (optimizeFile cfg env (getFileData fp source target none)
             st.stats st.map source target).stats)
        (optimizeFile cfg env (getFileData fp source target none)
          st.stats st.map source target).map
        st.log := by
  unfold stepFile
  dsimp only
  rw [he]

/-- In lenient mode one loop iteration never aborts. -/
theorem afterOpt_lenient_total (cfg : Config) (env : Env) (cb : Option Cb)
    (st : LoopState) (fp : String) (file : FileData) (stats : Stats) (m : JsMap)
    (log : List JsErr) (hs : cfg.strict = false) :
    ∃ st', afterOpt cfg env cb st fp file stats m log = .ok st' := by
  cases hg : (match cb with | some g => g file stats | none => true) with
  | false =>
    exact ⟨_, afterOpt_skip_gate cfg env cb st fp file stats m log (Or.inl hg)⟩
  | true =>
    by_cases hb : file.buffer = none
    · exact ⟨_, afterOpt_skip_gate cfg env cb st fp file stats m log (Or.inr hb)⟩
    · by_cases hrel : file.rel = "."
      · rw [afterOpt_root cfg env cb st fp file stats m log hg hb hrel]
        cases hw : env.write file.target.path (file.buffer.getD []) with
        | true => exact ⟨_, doWrite_ok cfg env st fp file stats m log _ _ hw⟩
        | false => exact ⟨_, doWrite_fail_lenient cfg env st fp file stats m log _ _ hs hw⟩
      · rw [afterOpt_dir cfg env cb st fp file stats m log hg hb hrel]
        dsimp only
        rw [reqDir_lenient_no_throw cfg env _ stats.dirs hs]
        by_cases hav : (requireDirectory cfg env (pathJoin file.target_root file.rel)
            stats.dirs).available = false
        · rw [if_pos hav]
          exact ⟨_, rfl⟩
        · rw [if_neg hav]
          cases hw : env.write file.target.path (file.buffer.getD []) with
          | true => exact ⟨_, doWrite_ok cfg env st fp file _ m _ _ _ hw⟩
          | false => exact ⟨_, doWrite_fail_lenient cfg env st fp file _ m _ _ _ hs hw⟩

/-- In lenient mode the whole loop body never aborts. -/
theorem stepFile_lenient_total (cfg : Config) (env : Env) (source : SourceObj)
    (target : TargetObj) (cb : Option Cb) (st : LoopState) (fp : String)
    (hs : cfg.strict = false) :
    ∃ st', stepFile cfg env source target cb st fp = .ok st' := by
  cases hre : (optimizeFile cfg env (getFileData fp source target none)
      st.stats st.map source target).err with
  | some e =>
    rw [stepFile_err_lenient cfg env source target cb st fp e hs hre]
    exact afterOpt_lenient_total cfg env cb st fp _ _ _ _ hs
  | none =>
    rw [stepFile_ok_case cfg env source target cb st fp hre]
    exact afterOpt_lenient_total cfg env cb st fp _ _ _ _ hs

/-- Per-iteration accounting: every iteration appends exactly one job
record, increments at most one of `skipped`/`processed`, increments
`written` at most once, accumulates exactly the job's size contributions,
leaves `sources`, `hashmap` and the aggregate percent untouched, and
invokes the callback exactly once when present. -/
theorem stepFile_shape (cfg : Config) (env : Env) (source : SourceObj) (target : TargetObj)
    (cb : Option Cb) (st : LoopState) (fp : String) (st' : LoopState)
    (h : stepFile cfg env source target cb st fp = .ok st') :
    ∃ j, st'.jobs = st.jobs ++ [j] ∧
      st'.stats.sources = st.stats.sources ∧
      st'.stats.hashmap = st.stats.hashmap ∧
      st'.stats.size.percent = st.stats.size.percent ∧
      st'.stats.skipped + st'.stats.processed ≤ st.stats.skipped + st.stats.processed + 1 ∧
      st'.stats.written ≤ st.stats.written + 1 ∧
      st'.stats.size.source = st.stats.size.source + srcContrib j ∧
      st'.stats.size.target = st.stats.size.target + tgtContrib j ∧
      st'.cbCalls = cbCallsAfter cb st.cbCalls fp := by
  cases hre : (optimizeFile cfg env (getFileData fp source target none)
      st.stats st.map source target).err with
  | some e =>
    cases hsts : cfg.strict with
    | true =>
      rw [stepFile_err_strict cfg env source target cb st fp e hsts hre] at h
      simp at h
    | false =>
      rw [stepFile_err_lenient cfg env source target cb st fp e hsts hre] at h
      set r := optimizeFile cfg env (getFileData fp source target none)
        st.stats st.map source target with hr
      obtain ⟨hsrc, hhm, hwr, hpr, hdirs, hpc, herr, hnob, hyes⟩ :=
        optimizeFile_fields cfg env _ st.stats st.map source target r rfl hr.symm
      obtain ⟨hst_eq, hbn⟩ := herr (by simp [hre])
      rw [afterOpt_skip_gate cfg env cb st fp r.data r.stats r.map _ (Or.inr hbn)] at h
      obtain rfl := Except.ok.inj h
      refine ⟨r.data, rfl, ?_, ?_, ?_, ?_, ?_, ?_, ?_, rfl⟩
      · dsimp only
        rw [hst_eq]
      · dsimp only
        rw [hst_eq]
      · dsimp only
        rw [hst_eq]
      · dsimp only
        rw [hst_eq]
        omega
      · dsimp only
        rw [hst_eq]
        omega
      · dsimp only
        rw [hst_eq]
        simp [srcContrib, hbn]
      · dsimp only
        rw [hst_eq]
        simp [tgtContrib, hbn]
  | none =>
    rw [stepFile_ok_case cfg env source target cb st fp hre] at h
    set r := optimizeFile cfg env (getFileData fp source target none)
      st.stats st.map source target with hr
    obtain ⟨hsrc, hhm, hwr, hpr, hdirs, hpc, herr, hnob, hyes⟩ :=
      optimizeFile_fields cfg env _ st.stats st.map source target r rfl hr.symm
    cases hbuf : r.data.buffer with
    | none =>
      obtain ⟨hsz, hsk⟩ := hnob hbuf
      simp only [hbuf, Option.isSome_none, Bool.false_eq_true, if_false] at h
      rw [afterOpt_skip_gate cfg env cb st fp r.data r.stats r.map _ (Or.inr hbuf)] at h
      obtain rfl := Except.ok.inj h
      refine ⟨r.data, rfl, hsrc, hhm, hpc, ?_, ?_, ?_, ?_, rfl⟩
      · dsimp only
        omega
      · dsimp only
        omega
      · dsimp only
        rw [hsz]
        simp [srcContrib, hbuf]
      · dsimp only
        rw [hsz]
        simp [tgtContrib, hbuf]
    | some bb =>
      obtain ⟨hskq, hSs, hSt⟩ := hyes hre (by simp [hbuf])
      simp only [hbuf, Option.isSome_some, if_true] at h
      cases hg : (match cb with
          | some g => g r.data { r.stats with processed := r.stats.processed + 1 }
          | none => true) with
      | false =>
        rw [afterOpt_skip_gate cfg env cb st fp r.data _ r.map _ (Or.inl hg)] at h
        obtain rfl := Except.ok.inj h
        refine ⟨r.data, rfl, ?_, ?_, ?_, ?_, ?_, ?_, ?_, rfl⟩
        · simpa using hsrc
        · simpa using hhm
        · simpa using hpc
        · dsimp only
          omega
        · dsimp only
          omega
        · simpa [srcContrib, hbuf] using hSs
        · simpa [tgtContrib, hbuf] using hSt
      | true =>
        by_cases hrel : r.data.rel = "."
        · rw [afterOpt_root cfg env cb st fp r.data _ r.map _ hg (by simp [hbuf]) hrel] at h
          cases hw : env.write r.data.target.path (r.data.buffer.getD []) with
          | true =>
            rw [doWrite_ok cfg env st fp r.data _ r.map _ _ _ hw] at h
            obtain rfl := Except.ok.inj h
            refine ⟨r.data, rfl, ?_, ?_, ?_, ?_, ?_, ?_, ?_, rfl⟩
            · simpa using hsrc
            · simpa using hhm
            · simpa using hpc
            · dsimp only
              omega
            · dsimp only
              omega
            · simpa [srcContrib, hbuf] using hSs
            · simpa [tgtContrib, hbuf] using hSt
          | false =>
            cases hstr : cfg.strict with
            | true =>
              rw [doWrite_fail_strict cfg env st fp r.data _ r.map _ _ _ hstr hw] at h
              simp at h
            | false =>
              rw [doWrite_fail_lenient cfg env st fp r.data _ r.map _ _ _ hstr hw] at h
              obtain rfl := Except.ok.inj h
              refine ⟨r.data, rfl, ?_, ?_, ?_, ?_, ?_, ?_, ?_, rfl⟩
              · simpa using hsrc
              · simpa using hhm
              · simpa using hpc
              · dsimp only
                omega
              · dsimp only
                omega
              · simpa [srcContrib, hbuf] using hSs
              · simpa [tgtContrib, hbuf] using hSt
        · rw [afterOpt_dir cfg env cb st fp r.data _ r.map _ hg (by simp [hbuf]) hrel] at h
          dsimp only at h
          cases hth : (requireDirectory cfg env (pathJoin r.data.target_root r.data.rel)
              r.stats.dirs).thrown with
          | some e =>
            rw [hth] at h
            simp at h
          | none =>
            rw [hth] at h
            by_cases hav : (requireDirectory cfg env
                (pathJoin r.data.target_root r.data.rel) r.stats.dirs).available = false
            · rw [if_pos hav] at h
              obtain rfl := Except.ok.inj h
              refine ⟨r.data, rfl, ?_, ?_, ?_, ?_, ?_, ?_, ?_, rfl⟩
              · simpa using hsrc
              · simpa using hhm
              · simpa using hpc
              · dsimp only
                omega
              · dsimp only
                omega
              · simpa [srcContrib, hbuf] using hSs
              · simpa [tgtContrib, hbuf] using hSt
            · rw [if_neg hav] at h
              cases hw : env.write r.data.target.path (r.data.buffer.getD []) with
              | true =>
                rw [doWrite_ok cfg env st fp r.data _ r.map _ _ _ hw] at h
                obtain rfl := Except.ok.inj h
                refine ⟨r.data, rfl, ?_, ?_, ?_, ?_, ?_, ?_, ?_, rfl⟩
                · simpa using hsrc
                · simpa using hhm
                · simpa using hpc
                · simp only [LoopState.stats]
                  omega
                · simp only [LoopState.stats]
                  omega
                · simpa [srcContrib, hbuf] using hSs
                · simpa [tgtContrib, hbuf] using hSt
              | false =>
                cases hstr : cfg.strict with
                | true =>
                  rw [doWrite_fail_strict cfg env st fp r.data _ r.map _ _ _ hstr hw] at h
                  simp at h
                | false =>
                  rw [doWrite_fail_lenient cfg env st fp r.data _ r.map _ _ _ hstr hw] at h
                  obtain rfl := Except.ok.inj h
                  refine ⟨r.data, rfl, ?_, ?_, ?_, ?_, ?_, ?_, ?_, rfl⟩
                  · simpa using hsrc
                  · simpa using hhm
                  · simpa using hpc
                  · dsimp only
                    omega
                  · dsimp only
                    omega
                  · simpa [srcContrib, hbuf] using hSs
                  · simpa [tgtContrib, hbuf] using hSt

/-! ### Loop-level lemmas -/

theorem runFiles_append (cfg : Config) (env : Env) (source : SourceObj)
    (target : TargetObj) (cb : Option Cb) (st : LoopState) (l1 l2 : List String) :
    runFiles cfg env source target cb st (l1 ++ l2) =
      match runFiles cfg env source target cb st l1 with
      | .error e => .error e
      | .ok st1 => runFiles cfg env source target cb st1 l2 := by
  induction l1 generalizing st with
  | nil => simp [runFiles]
  | cons f rest ih =>
    simp only [List.cons_append, runFiles]
    cases stepFile cfg env source target cb st f with
    | error e => rfl
    | ok st1 => exact ih st1

theorem runFiles_lenient_total (cfg : Config) (env : Env) (source : SourceObj)
    (target : TargetObj) (cb : Option Cb) (hs : cfg.strict = false) :
    ∀ (l : List String) (st : LoopState),
      ∃ st', runFiles cfg env source target cb st l = .ok st' := by
  intro l
  induction l with
  | nil => exact fun st => ⟨st, rfl⟩
  | cons f rest ih =>
    intro st
    obtain ⟨st1, h1⟩ := stepFile_lenient_total cfg env source target cb st f hs
    obtain ⟨st', h2⟩ := ih st1
    exact ⟨st', by simp [runFiles, h1, h2]⟩

/-- Loop-level accounting, by composing `stepFile_shape`. -/
theorem runFiles_shape (cfg : Config) (env : Env) (source : SourceObj)
    (target : TargetObj) (cb : Option Cb) :
    ∀ (l : List String) (st st' : LoopState),
      runFiles cfg env source target cb st l = .ok st' →
      ∃ js, st'.jobs = st.jobs ++ js ∧ js.length = l.length ∧
        st'.stats.sources = st.stats.sources ∧
        st'.stats.hashmap = st.stats.hashmap ∧
        st'.stats.size.percent = st.stats.size.percent ∧
        st'.stats.skipped + st'.stats.processed ≤
          st.stats.skipped + st.stats.processed + l.length ∧
        st'.stats.written ≤ st.stats.written + l.length ∧
        st'.stats.size.source = st.stats.size.source + (js.map srcContrib).sum ∧
        st'.stats.size.target = st.stats.size.target + (js.map tgtContrib).sum ∧
        st'.cbCalls = st.cbCalls ++ (match cb with | some _ => l | none => []) := by
  intro l
  induction l with
  | nil =>
    intro st st' h
    obtain rfl := Except.ok.inj h
    refine ⟨[], by simp, rfl, rfl, rfl, rfl, by omega, by omega, by simp, by simp, ?_⟩
    cases cb <;> simp
  | cons f rest ih =>
    intro st st' h
    rw [show (f :: rest) = [f] ++ rest from rfl,
      runFiles_append cfg env source target cb st [f] rest] at h
    cases hstep : runFiles cfg env source target cb st [f] with
    | error e => rw [hstep] at h; simp at h
    | ok st1 =>
      rw [hstep] at h
      have hstep' : stepFile cfg env source target cb st f = .ok st1 := by
        have : runFiles cfg env source target cb st [f] =
            match stepFile cfg env source target cb st f with
            | .error e => .error e
            | .ok s => .ok s := by
          unfold runFiles
          cases stepFile cfg env source target cb st f <;> rfl
        rw [this] at hstep
        cases hx : stepFile cfg env source target cb st f with
        | error e => rw [hx] at hstep; simp at hstep
        | ok s => rw [hx] at hstep; simpa using hstep
      obtain ⟨j, hj, hsrc1, hhm1, hpc1, hsp1, hw1, hss1, hst1, hcb1⟩ :=
        stepFile_shape cfg env source target cb st f st1 hstep'
      obtain ⟨js, hjs, hlen, hsrc2, hhm2, hpc2, hsp2, hw2, hss2, hst2, hcb2⟩ :=
        ih st1 st' h
      refine ⟨j :: js, ?_, by simp [hlen], by rw [hsrc2, hsrc1],
        by rw [hhm2, hhm1], by rw [hpc2, hpc1],
        by simp only [List.length_cons]; omega,
        by simp only [List.length_cons]; omega, ?_, ?_, ?_⟩
      · rw [hjs, hj]
        simp
      · rw [hss2, hss1]
        simp [Nat.add_assoc]
      · rw [hst2, hst1]
        simp [Nat.add_assoc]
      · rw [hcb2, hcb1]
        cases cb <;> simp [cbCallsAfter]

/-- Decomposition of a successful `run` into its phases. -/
theorem run_decomp (cfg : Config) (env : Env) (s t : String) (cb : Option Cb)
    (m0 : JsMap) (r : RunResult) (h : run cfg env s t cb m0 = .ok r) :
    ∃ source target hm m1 log0 st,
      resolveSource env s = .ok source ∧
      resolveTarget env t = .ok target ∧
      loadMap cfg env source m0 = .ok (hm, m1, log0) ∧
      runFiles cfg env source target cb (initState source hm m1 log0) source.files = .ok st ∧
      r.map = st.map ∧ r.jobs = st.jobs ∧ r.log = st.log ∧ r.cbCalls = st.cbCalls ∧
      r.writeCalls = st.writeCalls ∧ r.attempts = st.attempts ∧
      r.stats.sources = st.stats.sources ∧ r.stats.processed = st.stats.processed ∧
      r.stats.written = st.stats.written ∧ r.stats.skipped = st.stats.skipped ∧
      r.stats.size.source = st.stats.size.source ∧
      r.stats.size.target = st.stats.size.target ∧
      r.stats.dirs = st.stats.dirs ∧ r.stats.hashmap = st.stats.hashmap ∧
      r.stats.size.percent =
        (if st.stats.size.source ≠ 0 ∧ st.stats.size.target ≠ 0 then
           round2 (100 - (st.stats.size.target : Rat) / (st.stats.size.source : Rat) * 100)
         else st.stats.size.percent) ∧
      r.mapWrite = (if cfg.map ∧ st.stats.hashmap.isSome then
           st.stats.hashmap.map (fun p => (p, st.map))
         else none) := by
  unfold run at h
  cases hrs : resolveSource env s with
  | error e => rw [hrs] at h; simp at h
  | ok source =>
    rw [hrs] at h
    dsimp only at h
    cases hrt : resolveTarget env t with
    | error e => rw [hrt] at h; simp at h
    | ok target =>
      rw [hrt] at h
      dsimp only at h
      cases hlm : loadMap cfg env source m0 with
      | error e => rw [hlm] at h; simp at h
      | ok trip =>
        obtain ⟨hm, m1, log0⟩ := trip
        rw [hlm] at h
        dsimp only at h
        cases hrf : runFiles cfg env source target cb
            (initState source hm m1 log0) source.files with
        | error e => rw [hrf] at h; simp at h
        | ok st =>
          rw [hrf] at h
          dsimp only at h
          obtain rfl := Except.ok.inj h
          exact ⟨source, target, hm, m1, log0, st, rfl, rfl, hlm, hrf, rfl, rfl, rfl,
            rfl, rfl, rfl, rfl, rfl, rfl, rfl, rfl, rfl, rfl, rfl, rfl, rfl⟩

/-! ### Independence of the in-memory map from the write primitive -/

theorem typeOfBuffer_agree (env env' : Env) (hdet : env'.detect = env.detect) :
    ∀ (buf : List Nat) (f : FileData), typeOfBuffer env' buf f = typeOfBuffer env buf f := by
  intro buf f
  unfold typeOfBuffer
  rw [hdet]

theorem readData_agree (cfg : Config) (env env' : Env) (hdet : env'.detect = env.detect)
    (hhash : env'.hashFn = env.hashFn) :
    ∀ (d : FileData) (b : List Nat), readData cfg env' d b = readData cfg env d b := by
  intro d b
  unfold readData
  rw [typeOfBuffer_agree env env' hdet, hhash]

theorem transformedData_agree (env env' : Env) (src : SourceObj) (tgt : TargetObj)
    (hdet : env'.detect = env.detect) :
    ∀ (d : FileData) (b o : List Nat),
      transformedData env' src tgt d b o = transformedData env src tgt d b o := by
  intro d b o
  unfold transformedData
  rw [typeOfBuffer_agree env env' hdet]

theorem optimizeFile_agree (cfg : Config) (env env' : Env) (d : FileData) (s s' : Stats)
    (m : JsMap) (src : SourceObj) (tgt : TargetObj)
    (hread : env'.read = env.read) (htr : env'.transform = env.transform)
    (hdet : env'.detect = env.detect) (hhash : env'.hashFn = env.hashFn) :
    (optimizeFile cfg env' d s' m src tgt).map = (optimizeFile cfg env d s m src tgt).map ∧
    (optimizeFile cfg env' d s' m src tgt).err = (optimizeFile cfg env d s m src tgt).err ∧
    (optimizeFile cfg env' d s' m src tgt).data = (optimizeFile cfg env d s m src tgt).data := by
  unfold optimizeFile
  rw [hread]
  cases hr : env.read d.source.path with
  | error e => exact ⟨rfl, rfl, rfl⟩
  | ok buf =>
    dsimp only
    rw [readData_agree cfg env env' hdet hhash]
    cases hdec : (shouldOptimize cfg (readData cfg env d buf) m).1 with
    | false => simp
    | true =>
      rw [htr]
      simp only [transformedData_agree env env' src tgt hdet]
      cases htb : env.transform buf with
      | error e => simp
      | ok out => simp

/-- The final map of one iteration is the map component of `_optimizeFile`:
nothing after the skip decision ever touches `this._map`. -/
theorem afterOpt_map (cfg : Config) (env : Env) (cb : Option Cb) (st : LoopState)
    (fp : String) (file : FileData) (stats : Stats) (m : JsMap) (log : List JsErr)
    (st' : LoopState) (h : afterOpt cfg env cb st fp file stats m log = .ok st') :
    st'.map = m := by
  unfold afterOpt doWrite at h
  dsimp only at h
  repeat' split at h
  all_goals first
    | exact (Except.noConfusion h)
    | (cases Except.ok.inj h; rfl)

theorem stepFile_map (cfg : Config) (env : Env) (source : SourceObj) (target : TargetObj)
    (cb : Option Cb) (st : LoopState) (fp : String) (st' : LoopState)
    (h : stepFile cfg env source target cb st fp = .ok st') :
    st'.map = (optimizeFile cfg env (getFileData fp source target none)
      st.stats st.map source target).map := by
  unfold stepFile at h
  dsimp only at h
  cases hre : (optimizeFile cfg env (getFileData fp source target none)
      st.stats st.map source target).err with
  | some e =>
    rw [hre] at h
    dsimp only at h
    by_cases hst : cfg.strict = true
    · rw [if_pos hst] at h
      exact (Except.noConfusion h)
    · rw [if_neg hst] at h
      exact afterOpt_map cfg env cb st fp _ _ _ _ st' h
  | none =>
    rw [hre] at h
    dsimp only at h
    exact afterOpt_map cfg env cb st fp _ _ _ _ st' h

theorem runFiles_map_agree (cfg : Config) (env env' : Env) (source : SourceObj)
    (target : TargetObj) (cb : Option Cb)
    (hread : env'.read = env.read) (htr : env'.transform = env.transform)
    (hdet : env'.detect = env.detect) (hhash : env'.hashFn = env.hashFn) :
    ∀ (l : List String) (st1 st2 st1' st2' : LoopState), st1.map = st2.map →
      runFiles cfg env source target cb st1 l = .ok st1' →
      runFiles cfg env' source target cb st2 l = .ok st2' →
      st1'.map = st2'.map := by
  intro l
  induction l with
  | nil =>
    intro st1 st2 st1' st2' hm h1 h2
    obtain rfl := Except.ok.inj h1
    obtain rfl := Except.ok.inj h2
    exact hm
  | cons f rest ih =>
    intro st1 st2 st1' st2' hm h1 h2
    unfold runFiles at h1 h2
    cases hs1 : stepFile cfg env source target cb st1 f with
    | error e => rw [hs1] at h1; exact (Except.noConfusion h1)
    | ok stA =>
      rw [hs1] at h1
      cases hs2 : stepFile cfg env' source target cb st2 f with
      | error e => rw [hs2] at h2; exact (Except.noConfusion h2)
      | ok stB =>
        rw [hs2] at h2
        have hA := stepFile_map cfg env source target cb st1 f stA hs1
        have hB := stepFile_map cfg env' source target cb st2 f stB hs2
        have hAB : stA.map = stB.map := by
          rw [hA, hB, hm]
          exact ((optimizeFile_agree cfg env env' (getFileData f source target none)
            st1.stats st2.stats st2.map source target hread htr hdet hhash).1).symm
        exact ih stA stB st1' st2' hAB h1 h2

theorem resolveSource_agree (env env' : Env) (s : String)
    (hex : env'.fsExists = env.fsExists) (hdir : env'.isDir = env.isDir)
    (hfl : env'.fileList = env.fileList) :
    resolveSource env' s = resolveSource env s := by
  unfold resolveSource
  rw [hex, hdir, hfl]

theorem resolveTarget_agree (env env' : Env) (t : String)
    (hex : env'.fsExists = env.fsExists) (hdir : env'.isDir = env.isDir)
    (hdc : env'.dirCreate = env.dirCreate) :
    resolveTarget env' t = resolveTarget env t := by
  unfold resolveTarget
  rw [hex, hdir, hdc]

theorem loadMap_agree (cfg : Config) (env env' : Env) (source : SourceObj) (m0 : JsMap)
    (hex : env'.fsExists = env.fsExists) (hjson : env'.readJSON = env.readJSON) :
    loadMap cfg env' source m0 = loadMap cfg env source m0 := by
  unfold loadMap
  rw [hex, hjson]

/-! ### Concrete instances used by witnesses and counterexamples -/

/-- Fingerprinting on, lenient. -/
def cfgLenient : Config :=
  { map := true, squash := false, mapName := ".minify-images.map", strict := false }

/-- Fingerprinting on, strict. -/
def cfgStrict : Config :=
  { map := true, squash := false, mapName := ".minify-images.map", strict := true }

/-- Fingerprinting off, lenient. -/
def cfgOff : Config :=
  { map := false, squash := false, mapName := ".minify-images.map", strict := false }

/-- A small file system: `src/a.png` at the source root and `src/sub/b.png`
in a subdirectory, an existing target directory `dist`, an identity
optimizer, a png detector, and a length-based stand-in hash. -/
def baseEnv : Env :=
  { read := fun p =>
      if p = "src/a.png" then .ok [10, 11]
      else if p = "src/sub/b.png" then .ok [12]
      else .error (JsErr.base ("ENOENT: " ++ p))
  , fsExists := fun p => p == "src" || p == "dist" || p == "src/a.png" || p == "src/sub/b.png"
  , isDir := fun p => p == "src" || p == "dist"
  , fileList := fun p => if p = "src" then ["src/a.png", "src/sub/b.png"] else []
  , dirCreate := fun p => if p = "dist/sub" then .ok true else .ok false
  , write := fun _ _ => true
  , readJSON := fun _ => .error (JsErr.base ("ENOENT"))
  , transform := fun b => .ok b
  , detect := fun _ => some { ext := "png", mime := "image/png" }
  , hashFn := fun b => "h" ++ toString b.length }

/-- A job record for `src/a.png` whose stored hash matches `mHit`. -/
def c1hit : FileData :=
  { source_root := "src", target_root := "dist", rel := "."
  , source := { dir := "src", name := "a", ext := ".png", path := "src/a.png" }
  , target := { dir := "dist", name := "a", ext := ".png", path := "dist/a.png" }
  , hash := some "h1", buffer := none, source_type := none, target_type := none
  , source_size := none, target_size := none, percent := none }

/-- The same record with a changed content hash. -/
def c1miss : FileData := { c1hit with hash := some "h2" }

/-- A stored map with the old hash for `a.png`. -/
def mHit : JsMap := [("a.png", some "h1")]

/-! ### C1 — the skip decision -/

/-- **C1** (counterexample): the claim states that in every non-skip case —
including fingerprinting disabled — `_shouldOptimize` returns true *and
immediately upserts* `key → newHash`.  With `options.map = false` and a
fresh hash the method returns true but leaves the in-memory map entirely
untouched: no entry for the key is created. -/
theorem c1_counterexample :
    (shouldOptimize cfgOff c1miss []).1 = true ∧
    (shouldOptimize cfgOff c1miss []).2 = [] ∧
    mapGet (shouldOptimize cfgOff c1miss []).2 (mapKey c1miss) ≠ some (some "h2") := by
  decide

/-- **C1** (amended): `_shouldOptimize` returns false and leaves the stored
hash untouched exactly when fingerprinting is enabled and the stored hash
strictly equals the new hash; when fingerprinting is enabled and the entry
is missing or different it returns true and immediately upserts
`key → newHash` (leaving all other keys unchanged); when fingerprinting is
disabled it returns true and leaves the map untouched (no upsert); and the
in-memory map at the end of a completed lenient run does not depend on the
write primitive at all, so a later write failure never rolls an entry
back. -/
theorem c1_skip_decision (cfg : Config) (d : FileData) (m : JsMap) :
    ((shouldOptimize cfg d m).1 = false ↔
      (cfg.map = true ∧ jsStrictEq (mapGet m (mapKey d)) d.hash = true)) ∧
    ((shouldOptimize cfg d m).1 = false → (shouldOptimize cfg d m).2 = m) ∧
    (cfg.map = true → jsStrictEq (mapGet m (mapKey d)) d.hash = false →
      (shouldOptimize cfg d m).1 = true ∧
      mapGet (shouldOptimize cfg d m).2 (mapKey d) = some d.hash ∧
      (∀ k, k ≠ mapKey d → mapGet (shouldOptimize cfg d m).2 k = mapGet m k)) ∧
    (cfg.map = false → shouldOptimize cfg d m = (true, m)) ∧
    (∀ (env env' : Env) (s t : String) (cb : Option Cb) (m0 : JsMap) (r r' : RunResult),
      cfg.strict = false →
      env'.read = env.read → env'.fsExists = env.fsExists → env'.isDir = env.isDir →
      env'.fileList = env.fileList → env'.dirCreate = env.dirCreate →
      env'.readJSON = env.readJSON → env'.transform = env.transform →
      env'.detect = env.detect → env'.hashFn = env.hashFn →
      run cfg env s t cb m0 = .ok r → run cfg env' s t cb m0 = .ok r' →
      r.map = r'.map) := by
  refine ⟨?_, ?_, ?_, ?_, ?_⟩
  · constructor
    · intro h
      by_cases hcm : cfg.map = true
      · refine ⟨hcm, ?_⟩
        by_cases hq : jsStrictEq (mapGet m (mapKey d)) d.hash = true
        · exact hq
        · rw [shouldOptimize_miss cfg d m hcm (by
            cases hx : jsStrictEq (mapGet m (mapKey d)) d.hash
            · rfl
            · exact absurd hx hq)] at h
          simp at h
      · rw [shouldOptimize_off cfg d m (by
          cases hx : cfg.map
          · rfl
          · exact absurd hx hcm)] at h
        simp at h
    · rintro ⟨hcm, hq⟩
      rw [shouldOptimize_hit cfg d m hcm hq]
  · intro h
    by_cases hcm : cfg.map = true
    · by_cases hq : jsStrictEq (mapGet m (mapKey d)) d.hash = true
      · rw [shouldOptimize_hit cfg d m hcm hq]
      · rw [shouldOptimize_miss cfg d m hcm (by
          cases hx : jsStrictEq (mapGet m (mapKey d)) d.hash
          · rfl
          · exact absurd hx hq)] at h
        simp at h
    · rw [shouldOptimize_off cfg d m (by
        cases hx : cfg.map
        · rfl
        · exact absurd hx hcm)]
  · intro hcm hq
    rw [shouldOptimize_miss cfg d m hcm hq]
    exact ⟨rfl, mapGet_mapSet_self m (mapKey d) d.hash,
      fun k hk => mapGet_mapSet_ne m (mapKey d) k d.hash hk⟩
  · intro hcm
    exact shouldOptimize_off cfg d m hcm
  · intro env env' s t cb m0 r r' hs hread hex hdir hfl hdc hjson htr hdet hhash h1 h2
    obtain ⟨so1, tg1, hm1, mm1, lg1, st1, hrs1, hrt1, hlm1, hrf1, hmap1, hrest1⟩ :=
      run_decomp cfg env s t cb m0 r h1
    obtain ⟨so2, tg2, hm2, mm2, lg2, st2, hrs2, hrt2, hlm2, hrf2, hmap2, hrest2⟩ :=
      run_decomp cfg env' s t cb m0 r' h2
    rw [resolveSource_agree env env' s hex hdir hfl] at hrs2
    obtain rfl : so1 = so2 := Except.ok.inj (hrs1.symm.trans hrs2)
    rw [resolveTarget_agree env env' t hex hdir hdc] at hrt2
    obtain rfl : tg1 = tg2 := Except.ok.inj (hrt1.symm.trans hrt2)
    rw [loadMap_agree cfg env env' so1 m0 hex hjson] at hlm2
    have htrip := Except.ok.inj (hlm1.symm.trans hlm2)
    have hmm : mm1 = mm2 := congrArg (fun p => p.2.1) htrip
    rw [hmap1, hmap2]
    exact runFiles_map_agree cfg env env' so1 tg1 cb hread htr hdet hhash so1.files
      (initState so1 hm1 mm1 lg1) (initState so1 hm2 mm2 lg2) st1 st2 hmm hrf1 hrf2

/-- A second environment differing from `baseEnv` only in the write
primitive, which always fails. -/
def baseEnvNoWrite : Env := { baseEnv with write := fun _ _ => false }

theorem c1_witness :
    (shouldOptimize cfgLenient c1hit mHit).1 = false ∧
    (shouldOptimize cfgLenient c1hit mHit).2 = mHit ∧
    (shouldOptimize cfgLenient c1miss mHit).1 = true ∧
    mapGet (shouldOptimize cfgLenient c1miss mHit).2 (mapKey c1miss) = some (some "h2") ∧
    shouldOptimize cfgOff c1hit mHit = (true, mHit) ∧
    (∃ r r', run cfgLenient baseEnv "src" "dist" none [] = .ok r ∧
      run cfgLenient baseEnvNoWrite "src" "dist" none [] = .ok r' ∧ r.map = r'.map) := by
  have h1 := c1_skip_decision cfgLenient c1hit mHit
  have h2 := c1_skip_decision cfgLenient c1miss mHit
  have h3 := c1_skip_decision cfgOff c1hit mHit
  have hhit : (shouldOptimize cfgLenient c1hit mHit).1 = false :=
    h1.1.mpr ⟨rfl, by decide⟩
  have hmiss := h2.2.2.1 rfl (by decide)
  refine ⟨hhit, h1.2.1 hhit, hmiss.1, ?_, h3.2.2.2.1 rfl, ?_⟩
  · rw [hmiss.2.1]
    rfl
  · obtain ⟨r, hr⟩ : ∃ r, run cfgLenient baseEnv "src" "dist" none [] = .ok r := ⟨_, rfl⟩
    obtain ⟨r', hr'⟩ : ∃ r', run cfgLenient baseEnvNoWrite "src" "dist" none [] = .ok r' :=
      ⟨_, rfl⟩
    exact ⟨r, r', hr, hr',
      (c1_skip_decision cfgLenient c1hit mHit).2.2.2.2 baseEnv baseEnvNoWrite
        "src" "dist" none [] r r' rfl rfl rfl rfl rfl rfl rfl rfl rfl rfl hr hr'⟩

/-! ### C7 — `typeOfBuffer` -/

/-- **C7**: when type detection fails, `typeOfBuffer` falls back to the
file's original extension with the explicit mime mapping `jpg → image/jpeg`,
`svg → image/svg+xml`, otherwise `image/<ext>`; and whenever the resulting
extension is `xml` or the source extension is `.svg`, the result is
force-normalized to `{svg, image/svg+xml}`. -/
theorem c7_type_detection (env : Env) (buf : List Nat) (f : FileData) :
    (mimeGuess ("jpg") = "image/jpeg" ∧ mimeGuess ("svg") = "image/svg+xml" ∧
      (∀ e, e ≠ "jpg" → e ≠ "svg" → mimeGuess e = "image/" ++ e)) ∧
    (env.detect buf = none → strTail f.source.ext ≠ "xml" → f.source.ext ≠ ".svg" →
      typeOfBuffer env buf f =
        { ext := strTail f.source.ext, mime := mimeGuess (strTail f.source.ext) }) ∧
    (env.detect buf = none → (strTail f.source.ext = "xml" ∨ f.source.ext = ".svg") →
      typeOfBuffer env buf f = { ext := "svg", mime := "image/svg+xml" }) ∧
    (∀ tr, env.detect buf = some tr → (tr.ext = "xml" ∨ f.source.ext = ".svg") →
      typeOfBuffer env buf f = { ext := "svg", mime := "image/svg+xml" }) ∧
    (∀ tr, env.detect buf = some tr → tr.ext ≠ "xml" → f.source.ext ≠ ".svg" →
      typeOfBuffer env buf f = tr) := by
  refine ⟨⟨rfl, rfl, ?_⟩, ?_, ?_, ?_, ?_⟩
  · intro e h1 h2
    simp [mimeGuess, h1, h2]
  · intro hdet h1 h2
    unfold typeOfBuffer
    rw [hdet]
    simp [h1, h2]
  · intro hdet h
    unfold typeOfBuffer
    rw [hdet]
    rcases h with h | h <;> simp [h]
  · intro tr hdet h
    unfold typeOfBuffer
    rw [hdet]
    rcases h with h | h <;> simp [h]
  · intro tr hdet h1 h2
    unfold typeOfBuffer
    rw [hdet]
    simp [h1, h2]

/-- An environment whose detector always fails. -/
def envNoDetect : Env := { baseEnv with detect := fun _ => none }

/-- A job record whose source extension is `.svg`. -/
def svgFile : FileData :=
  { c1hit with source := { dir := "src", name := "v", ext := ".svg", path := "src/v.svg" } }

theorem c7_witness :
    typeOfBuffer envNoDetect [1] c1hit = { ext := "png", mime := "image/png" } ∧
    typeOfBuffer envNoDetect [1] svgFile = { ext := "svg", mime := "image/svg+xml" } ∧
    typeOfBuffer baseEnv [1] svgFile = { ext := "svg", mime := "image/svg+xml" } ∧
    typeOfBuffer baseEnv [1] c1hit = { ext := "png", mime := "image/png" } ∧
    mimeGuess ("jpg") = "image/jpeg" := by
  have h1 := c7_type_detection envNoDetect [1] c1hit
  have h2 := c7_type_detection envNoDetect [1] svgFile
  have h3 := c7_type_detection baseEnv [1] svgFile
  have h4 := c7_type_detection baseEnv [1] c1hit
  refine ⟨?_, ?_, ?_, ?_, h1.1.1⟩
  · rw [h1.2.1 rfl (by decide) (by decide)]
    decide
  · exact h2.2.2.1 rfl (Or.inr (by decide))
  · exact h3.2.2.2.1 { ext := "png", mime := "image/png" } rfl (Or.inr (by decide))
  · exact h4.2.2.2.2 { ext := "png", mime := "image/png" } rfl (by decide) (by decide)

/-! ### C3 — aggregate compression percentage -/

/-- **C3**: for every run that returns stats, the aggregate
`stats.size.percent` equals `100 − totalTarget/totalSource × 100` rounded to
the configured precision (two decimals), and equals `0` whenever either
total is zero. -/
theorem c3_aggregate_percent (cfg : Config) (env : Env) (s t : String) (cb : Option Cb)
    (m0 : JsMap) (r : RunResult) (h : run cfg env s t cb m0 = .ok r) :
    r.stats.size.percent =
      (if r.stats.size.source = 0 ∨ r.stats.size.target = 0 then 0
       else round2 (100 - (r.stats.size.target : Rat) / (r.stats.size.source : Rat) * 100)) := by
  obtain ⟨source, target, hm, m1, log0, st, hrs, hrt, hlm, hrf, hmap, hjobs, hlog, hcb,
    hwc, hat, hsrc, hpr, hwr, hsk, hSs, hSt, hdirs, hhm, hpc, hmw⟩ :=
    run_decomp cfg env s t cb m0 r h
  obtain ⟨js, _, _, _, _, hpc0, _, _, _, _, _⟩ :=
    runFiles_shape cfg env source target cb source.files _ st hrf
  have hzero : st.stats.size.percent = 0 := by
    rw [hpc0]
    rfl
  rw [hpc, hSs, hSt]
  by_cases h0 : st.stats.size.source = 0 ∨ st.stats.size.target = 0
  · rw [if_pos h0, if_neg (by
      rintro ⟨h1, h2⟩
      rcases h0 with h0 | h0
      · exact h1 h0
      · exact h2 h0)]
    exact hzero
  · rw [if_neg h0, if_pos ⟨fun hc => h0 (Or.inl hc), fun hc => h0 (Or.inr hc)⟩]

/-- A map whose stored hash for `a.png` matches `baseEnv`'s content, so the
file is skipped; the second file's read fails, so no sizes accumulate and
the zero-total branch of the percent computation is exercised. -/
def envSkipAll : Env :=
  { baseEnv with
    read := fun p => if p = "src/a.png" then .ok [10, 11]
      else .error (JsErr.base ("ENOENT: " ++ p))
  , fileList := fun p => if p = "src" then ["src/a.png"] else []
  , fsExists := fun p => p == "src" || p == "dist" || p == "src/a.png" }

theorem c3_witness :
    ∃ r, run cfgLenient envSkipAll "src" "dist" none [("a.png", some "h2")] = .ok r ∧
      r.stats.size.percent =
        (if r.stats.size.source = 0 ∨ r.stats.size.target = 0 then 0
         else round2 (100 - (r.stats.size.target : Rat) / (r.stats.size.source : Rat) * 100)) :=
  ⟨_, rfl, c3_aggregate_percent cfgLenient envSkipAll ("src") ("dist") none
    [("a.png", some "h2")] _ rfl⟩

/-! ### C9 — counter invariants -/

/-- **C9**: each iteration increments at most one of `skipped`/`processed`
and `written` at most once, so in every completed lenient run (and after
every prefix of the loop) `skipped + processed ≤ sources` and
`written ≤ sources`; the size totals are exactly the sums of the per-job
contributions, and a job without an output buffer — in particular a file
skipped by the cache — contributes nothing to either total. -/
theorem c9_counter_invariants (cfg : Config) (env : Env) :
    (∀ (source : SourceObj) (target : TargetObj) (cb : Option Cb) (st : LoopState)
       (fp : String) (st' : LoopState),
       stepFile cfg env source target cb st fp = .ok st' →
       st'.stats.skipped + st'.stats.processed ≤
         st.stats.skipped + st.stats.processed + 1 ∧
       st'.stats.written ≤ st.stats.written + 1) ∧
    (∀ (s t : String) (cb : Option Cb) (m0 : JsMap) (r : RunResult),
       cfg.strict = false → run cfg env s t cb m0 = .ok r →
       r.stats.skipped + r.stats.processed ≤ r.stats.sources ∧
       r.stats.written ≤ r.stats.sources ∧
       r.stats.size.source = (r.jobs.map srcContrib).sum ∧
       r.stats.size.target = (r.jobs.map tgtContrib).sum ∧
       (∀ j ∈ r.jobs, j.buffer = none → srcContrib j = 0 ∧ tgtContrib j = 0)) ∧
    (∀ (source : SourceObj) (target : TargetObj) (cb : Option Cb) (hm : Option String)
       (m1 : JsMap) (log0 : List JsErr) (n : Nat) (st : LoopState),
       runFiles cfg env source target cb (initState source hm m1 log0)
         (source.files.take n) = .ok st →
       st.stats.skipped + st.stats.processed ≤ n ∧ st.stats.written ≤ n) := by
  refine ⟨?_, ?_, ?_⟩
  · intro source target cb st fp st' h
    obtain ⟨j, _, _, _, _, h5, h6, _, _, _⟩ :=
      stepFile_shape cfg env source target cb st fp st' h
    exact ⟨h5, h6⟩
  · intro s t cb m0 r hs h
    obtain ⟨source, target, hm, m1, log0, st, hrs, hrt, hlm, hrf, hmap, hjobs, hlog, hcb,
      hwc, hat, hsrc, hpr, hwr, hsk, hSs, hSt, hdirs, hhm, hpc, hmw⟩ :=
      run_decomp cfg env s t cb m0 r h
    obtain ⟨js, hjs, hlen, hsrc2, _, _, hsp, hw, hss, hst2, _⟩ :=
      runFiles_shape cfg env source target cb source.files _ st hrf
    have hjseq : st.jobs = js := by simpa [initState] using hjs
    have hsources : r.stats.sources = source.files.length := by
      rw [hsrc, hsrc2]
      rfl
    refine ⟨?_, ?_, ?_, ?_, ?_⟩
    · rw [hsk, hpr, hsources]
      have : st.stats.skipped + st.stats.processed ≤ source.files.length := by
        simpa [initState] using hsp
      exact this
    · rw [hwr, hsources]
      simpa [initState] using hw
    · rw [hSs, hjobs, hjseq]
      simpa [initState] using hss
    · rw [hSt, hjobs, hjseq]
      simpa [initState] using hst2
    · intro j hj hb
      simp [srcContrib, tgtContrib, hb]
  · intro source target cb hm m1 log0 n st h
    obtain ⟨js, hjs, hlen, _, _, _, hsp, hw, _, _, _⟩ :=
      runFiles_shape cfg env source target cb (source.files.take n) _ st h
    have h1 : st.stats.skipped + st.stats.processed ≤ (source.files.take n).length := by
      simpa [initState] using hsp
    have h2 : st.stats.written ≤ (source.files.take n).length := by
      simpa [initState] using hw
    have h3 : (source.files.take n).length ≤ n := by
      simpa using List.length_take_le n source.files
    exact ⟨h1.trans h3, h2.trans h3⟩

/-- The resolved source object of `baseEnv`. -/
def srcObjW : SourceObj :=
  { root := "src", source := "src", resolved := "src"
  , files := ["src/a.png", "src/sub/b.png"] }

/-- The resolved target object of `baseEnv`. -/
def tgtObjW : TargetObj :=
  { target := "dist", resolved := "dist", fsExists := true, created := none }

theorem c9_witness :
    (∃ st', stepFile cfgLenient baseEnv srcObjW tgtObjW none
        (initState srcObjW (some ("src/.minify-images.map")) [] []) ("src/a.png") =
        .ok st' ∧
      st'.stats.skipped + st'.stats.processed ≤ 1 ∧ st'.stats.written ≤ 1) ∧
    (∃ r, run cfgLenient baseEnv "src" "dist" none [] = .ok r ∧
      r.stats.skipped + r.stats.processed ≤ r.stats.sources ∧
      r.stats.written ≤ r.stats.sources ∧
      r.stats.size.source = (r.jobs.map srcContrib).sum) := by
  constructor
  · obtain ⟨st', hst⟩ : ∃ st', stepFile cfgLenient baseEnv srcObjW tgtObjW none
        (initState srcObjW (some ("src/.minify-images.map")) [] []) ("src/a.png") =
        .ok st' := ⟨_, rfl⟩
    have := (c9_counter_invariants cfgLenient baseEnv).1 _ _ none _ _ _ hst
    exact ⟨st', hst, by simpa [initState] using this.1, by simpa [initState] using this.2⟩
  · obtain ⟨r, hr⟩ : ∃ r, run cfgLenient baseEnv "src" "dist" none [] = .ok r := ⟨_, rfl⟩
    have := (c9_counter_invariants cfgLenient baseEnv).2.1 "src" "dist" none [] r rfl hr
    exact ⟨r, hr, this.1, this.2.1, this.2.2.1⟩

/-! ### C10 — the write-decision callback -/

/-- Fields the write phase never touches, and the appended job. -/
theorem afterOpt_stats_frame (cfg : Config) (env : Env) (cb : Option Cb) (st : LoopState)
    (fp : String) (file : FileData) (stats : Stats) (m : JsMap) (log : List JsErr)
    (st' : LoopState) (h : afterOpt cfg env cb st fp file stats m log = .ok st') :
    st'.stats.skipped = stats.skipped ∧ st'.stats.processed = stats.processed ∧
    st'.stats.size = stats.size ∧ st'.jobs = st.jobs ++ [file] := by
  unfold afterOpt doWrite at h
  dsimp only at h
  repeat' split at h
  all_goals first
    | exact (Except.noConfusion h)
    | (cases Except.ok.inj h; exact ⟨rfl, rfl, rfl, rfl⟩)

/-- The job record's `source` path data survives `_optimizeFile` unchanged. -/
theorem optimizeFile_data_source (cfg : Config) (env : Env) (d0 : FileData) (stats : Stats)
    (m : JsMap) (src : SourceObj) (tgt : TargetObj) :
    (optimizeFile cfg env d0 stats m src tgt).data.source = d0.source := by
  unfold optimizeFile
  cases hr : env.read d0.source.path with
  | error e => rfl
  | ok buf =>
    dsimp only
    cases hdec : (shouldOptimize cfg (readData cfg env d0 buf) m).1 with
    | false => simp [readData_source]
    | true =>
      cases htb : env.transform buf with
      | error e => simp [readData_source]
      | ok out => simp [transformedData_source, readData_source]

/-- **C10**: when a callback is supplied it is invoked exactly once for
every file in the source set, in order — including files skipped by the
cache and files whose read or transform failed in lenient mode; a falsy
return prevents the write (and the directory attempt) for that file only:
the callback's verdict influences neither the map, the job records, nor the
skip/processed/size accounting that later files depend on, and directory
availability for other files is a function of the environment alone. -/
theorem c10_write_callback (cfg : Config) (env : Env) :
    (∀ (s t : String) (g : Cb) (m0 : JsMap) (r : RunResult) (source : SourceObj),
       run cfg env s t (some g) m0 = .ok r →
       resolveSource env s = .ok source →
       r.cbCalls = source.files) ∧
    (∀ (source : SourceObj) (target : TargetObj) (g : Cb) (st : LoopState) (fp : String)
       (st' : LoopState),
       (∀ d s, d.source.path = fp → g d s = false) →
       stepFile cfg env source target (some g) st fp = .ok st' →
       st'.writeCalls = st.writeCalls ∧ st'.attempts = st.attempts ∧
       st'.stats.written = st.stats.written) ∧
    (∀ (source : SourceObj) (target : TargetObj) (g1 g2 : Cb) (st : LoopState)
       (fp : String) (st1 st2 : LoopState),
       stepFile cfg env source target (some g1) st fp = .ok st1 →
       stepFile cfg env source target (some g2) st fp = .ok st2 →
       st1.map = st2.map ∧ st1.jobs = st2.jobs ∧
       st1.stats.skipped = st2.stats.skipped ∧
       st1.stats.processed = st2.stats.processed ∧
       st1.stats.size = st2.stats.size) ∧
    (∀ (d : String) (dirs : DirStats),
       (∀ c ∈ dirs.created, env.dirCreate c = .ok true) →
       (requireDirectory cfg env d dirs).available = dirAvailable env d) := by
  refine ⟨?_, ?_, ?_, ?_⟩
  · intro s t g m0 r source h hrs
    obtain ⟨so, tg, hm, m1, log0, st, hrs1, hrt1, hlm1, hrf1, hmap, hjobs, hlog, hcb,
      hwc, hat, _⟩ := run_decomp cfg env s t (some g) m0 r h
    obtain rfl : so = source := Except.ok.inj (hrs1.symm.trans hrs)
    obtain ⟨js, _, _, _, _, _, _, _, _, _, hcb2⟩ :=
      runFiles_shape cfg env so tg (some g) so.files _ st hrf1
    rw [hcb, hcb2]
    simp [initState]
  · intro source target g st fp st' hfalse h
    have hsrc : (optimizeFile cfg env (getFileData fp source target none)
        st.stats st.map source target).data.source = (getFileData fp source target none).source :=
      optimizeFile_data_source cfg env _ st.stats st.map source target
    have hpath : (optimizeFile cfg env (getFileData fp source target none)
        st.stats st.map source target).data.source.path = fp := by
      rw [hsrc]
      rfl
    cases hre : (optimizeFile cfg env (getFileData fp source target none)
        st.stats st.map source target).err with
    | some e =>
      cases hsts : cfg.strict with
      | true =>
        rw [stepFile_err_strict cfg env source target (some g) st fp e hsts hre] at h
        exact (Except.noConfusion h)
      | false =>
        rw [stepFile_err_lenient cfg env source target (some g) st fp e hsts hre] at h
        rw [afterOpt_skip_gate cfg env (some g) st fp _ _ _ _
          (Or.inl (hfalse _ _ hpath))] at h
        cases Except.ok.inj h
        refine ⟨rfl, rfl, ?_⟩
        have := (optimizeFile_fields cfg env (getFileData fp source target none)
          st.stats st.map source target _ rfl rfl).2.2.1
        simpa using this
    | none =>
      rw [stepFile_ok_case cfg env source target (some g) st fp hre] at h
      rw [afterOpt_skip_gate cfg env (some g) st fp _ _ _ _
        (Or.inl (hfalse _ _ hpath))] at h
      cases Except.ok.inj h
      refine ⟨rfl, rfl, ?_⟩
      have := (optimizeFile_fields cfg env (getFileData fp source target none)
        st.stats st.map source target _ rfl rfl).2.2.1
      dsimp only
      split <;> simpa using this
  · intro source target g1 g2 st fp st1 st2 h1 h2
    have hm1 := stepFile_map cfg env source target (some g1) st fp st1 h1
    have hm2 := stepFile_map cfg env source target (some g2) st fp st2 h2
    cases hre : (optimizeFile cfg env (getFileData fp source target none)
        st.stats st.map source target).err with
    | some e =>
      cases hsts : cfg.strict with
      | true =>
        rw [stepFile_err_strict cfg env source target (some g1) st fp e hsts hre] at h1
        exact (Except.noConfusion h1)
      | false =>
        rw [stepFile_err_lenient cfg env source target (some g1) st fp e hsts hre] at h1
        rw [stepFile_err_lenient cfg env source target (some g2) st fp e hsts hre] at h2
        obtain ⟨ha1, hb1, hc1, hd1⟩ := afterOpt_stats_frame cfg env (some g1) st fp _ _ _ _ st1 h1
        obtain ⟨ha2, hb2, hc2, hd2⟩ := afterOpt_stats_frame cfg env (some g2) st fp _ _ _ _ st2 h2
        exact ⟨hm1.trans hm2.symm, hd1.trans hd2.symm, ha1.trans ha2.symm,
          hb1.trans hb2.symm, hc1.trans hc2.symm⟩
    | none =>
      rw [stepFile_ok_case cfg env source target (some g1) st fp hre] at h1
      rw [stepFile_ok_case cfg env source target (some g2) st fp hre] at h2
      obtain ⟨ha1, hb1, hc1, hd1⟩ := afterOpt_stats_frame cfg env (some g1) st fp _ _ _ _ st1 h1
      obtain ⟨ha2, hb2, hc2, hd2⟩ := afterOpt_stats_frame cfg env (some g2) st fp _ _ _ _ st2 h2
      exact ⟨hm1.trans hm2.symm, hd1.trans hd2.symm, ha1.trans ha2.symm,
        hb1.trans hb2.symm, hc1.trans hc2.symm⟩
  · intro d dirs hinv
    exact reqDir_available_char cfg env d dirs hinv

theorem c10_witness :
    (∃ r, run cfgLenient baseEnv "src" "dist" (some (fun _ _ => true)) [] = .ok r ∧
      r.cbCalls = ["src/a.png", "src/sub/b.png"]) ∧
    (∃ st', stepFile cfgLenient baseEnv srcObjW tgtObjW (some (fun _ _ => false))
        (initState srcObjW (some ("src/.minify-images.map")) [] []) ("src/a.png") =
        .ok st' ∧
      st'.writeCalls = [] ∧ st'.attempts = [] ∧ st'.stats.written = 0) ∧
    (requireDirectory cfgLenient baseEnv ("dist/sub") { created := [], failed := [] }).available =
      dirAvailable baseEnv ("dist/sub") := by
  refine ⟨?_, ?_, ?_⟩
  · obtain ⟨r, hr⟩ : ∃ r, run cfgLenient baseEnv "src" "dist"
        (some (fun _ _ => true)) [] = .ok r := ⟨_, rfl⟩
    refine ⟨r, hr, ?_⟩
    have := (c10_write_callback cfgLenient baseEnv).1 "src" "dist" (fun _ _ => true) [] r
      srcObjW hr (by rfl)
    simpa [srcObjW] using this
  · obtain ⟨st', hst⟩ : ∃ st', stepFile cfgLenient baseEnv srcObjW tgtObjW
        (some (fun _ _ => false))
        (initState srcObjW (some ("src/.minify-images.map")) [] []) ("src/a.png") =
        .ok st' := ⟨_, rfl⟩
    have := (c10_write_callback cfgLenient baseEnv).2.1 srcObjW tgtObjW (fun _ _ => false)
      _ _ _ (fun d s _ => rfl) hst
    exact ⟨st', hst, by simpa [initState] using this.1, by simpa [initState] using this.2.1,
      by simpa [initState] using this.2.2⟩
  · exact (c10_write_callback cfgLenient baseEnv).2.2.2 ("dist/sub")
      { created := [], failed := [] } (by intro c hc; simp at hc)

/-! ### C8 — write success accounting and the output buffer -/

/-- What the write phase does to `writeCalls`, `written` and the job list:
either the file never reaches the write (no write call, `written`
unchanged), or exactly one write call is issued for a job that still holds
its output buffer, and `written` is incremented exactly when it succeeded. -/
theorem afterOpt_write_char (cfg : Config) (env : Env) (cb : Option Cb) (st : LoopState)
    (fp : String) (file : FileData) (stats : Stats) (m : JsMap) (log : List JsErr)
    (st' : LoopState) (h : afterOpt cfg env cb st fp file stats m log = .ok st') :
    (st'.writeCalls = st.writeCalls ∧ st'.stats.written = stats.written) ∨
    (∃ w, st'.jobs = st.jobs ++ [file] ∧ file.buffer ≠ none ∧
       st'.writeCalls = st.writeCalls ++ [(fp, file.target.path, w)] ∧
       st'.stats.written = stats.written + (if w then 1 else 0)) := by
  cases hg : (match cb with | some g => g file stats | none => true) with
  | false =>
    rw [afterOpt_skip_gate cfg env cb st fp file stats m log (Or.inl hg)] at h
    cases Except.ok.inj h
    exact Or.inl ⟨rfl, rfl⟩
  | true =>
    cases hb : file.buffer with
    | none =>
      rw [afterOpt_skip_gate cfg env cb st fp file stats m log (Or.inr hb)] at h
      cases Except.ok.inj h
      exact Or.inl ⟨rfl, rfl⟩
    | some bb =>
      have hbn : file.buffer ≠ none := by
        rw [hb]
        exact fun hx => Option.noConfusion hx
      by_cases hrel : file.rel = "."
      · rw [afterOpt_root cfg env cb st fp file stats m log hg hbn hrel] at h
        cases hw : env.write file.target.path (file.buffer.getD []) with
        | true =>
          rw [doWrite_ok cfg env st fp file stats m log _ _ hw] at h
          cases Except.ok.inj h
          exact Or.inr ⟨true, rfl, by simp, rfl, by simp⟩
        | false =>
          cases hsts : cfg.strict with
          | true =>
            rw [doWrite_fail_strict cfg env st fp file stats m log _ _ hsts hw] at h
            exact (Except.noConfusion h)
          | false =>
            rw [doWrite_fail_lenient cfg env st fp file stats m log _ _ hsts hw] at h
            cases Except.ok.inj h
            exact Or.inr ⟨false, rfl, by simp, rfl, by simp⟩
      · rw [afterOpt_dir cfg env cb st fp file stats m log hg hbn hrel] at h
        dsimp only at h
        cases hth : (requireDirectory cfg env (pathJoin file.target_root file.rel)
            stats.dirs).thrown with
        | some e =>
          rw [hth] at h
          exact (Except.noConfusion h)
        | none =>
          rw [hth] at h
          by_cases hav : (requireDirectory cfg env (pathJoin file.target_root file.rel)
              stats.dirs).available = false
          · rw [if_pos hav] at h
            cases Except.ok.inj h
            exact Or.inl ⟨rfl, rfl⟩
          · rw [if_neg hav] at h
            cases hw : env.write file.target.path (file.buffer.getD []) with
            | true =>
              rw [doWrite_ok cfg env st fp file _ m _ _ _ hw] at h
              cases Except.ok.inj h
              exact Or.inr ⟨true, rfl, by simp, rfl, by simp⟩
            | false =>
              cases hsts : cfg.strict with
              | true =>
                rw [doWrite_fail_strict cfg env st fp file _ m _ _ _ hsts hw] at h
                exact (Except.noConfusion h)
              | false =>
                rw [doWrite_fail_lenient cfg env st fp file _ m _ _ _ hsts hw] at h
                cases Except.ok.inj h
                exact Or.inr ⟨false, rfl, by simp, rfl, by simp⟩

theorem stepFile_write_char (cfg : Config) (env : Env) (source : SourceObj)
    (target : TargetObj) (cb : Option Cb) (st : LoopState) (fp : String)
    (st' : LoopState) (h : stepFile cfg env source target cb st fp = .ok st') :
    (st'.writeCalls = st.writeCalls ∧ st'.stats.written = st.stats.written) ∨
    (∃ j w, st'.jobs = st.jobs ++ [j] ∧ j.buffer ≠ none ∧
       st'.writeCalls = st.writeCalls ++ [(fp, j.target.path, w)] ∧
       st'.stats.written = st.stats.written + (if w then 1 else 0)) := by
  have hwr := (optimizeFile_fields cfg env (getFileData fp source target none)
    st.stats st.map source target _ rfl rfl).2.2.1
  cases hre : (optimizeFile cfg env (getFileData fp source target none)
      st.stats st.map source target).err with
  | some e =>
    cases hsts : cfg.strict with
    | true =>
      rw [stepFile_err_strict cfg env source target cb st fp e hsts hre] at h
      exact (Except.noConfusion h)
    | false =>
      rw [stepFile_err_lenient cfg env source target cb st fp e hsts hre] at h
      rcases afterOpt_write_char cfg env cb st fp _ _ _ _ st' h with ⟨h1, h2⟩ | ⟨w, h1, h2, h3, h4⟩
      · exact Or.inl ⟨h1, h2.trans hwr⟩
      · exact Or.inr ⟨_, w, h1, h2, h3, by rw [h4, hwr]⟩
  | none =>
    rw [stepFile_ok_case cfg env source target cb st fp hre] at h
    rcases afterOpt_write_char cfg env cb st fp _ _ _ _ st' h with ⟨h1, h2⟩ | ⟨w, h1, h2, h3, h4⟩
    · refine Or.inl ⟨h1, ?_⟩
      rw [h2]
      split <;> simpa using hwr
    · refine Or.inr ⟨_, w, h1, h2, h3, ?_⟩
      rw [h4]
      split <;> simp [hwr]

theorem runFiles_written_count (cfg : Config) (env : Env) (source : SourceObj)
    (target : TargetObj) (cb : Option Cb) :
    ∀ (l : List String) (st st' : LoopState),
      runFiles cfg env source target cb st l = .ok st' →
      ∃ ws, st'.writeCalls = st.writeCalls ++ ws ∧
        st'.stats.written = st.stats.written + (ws.filter (fun w => w.2.2)).length := by
  intro l
  induction l with
  | nil =>
    intro st st' h
    obtain rfl := Except.ok.inj h
    exact ⟨[], by simp, by simp⟩
  | cons f rest ih =>
    intro st st' h
    unfold runFiles at h
    cases hstep : stepFile cfg env source target cb st f with
    | error e => rw [hstep] at h; exact (Except.noConfusion h)
    | ok st1 =>
      rw [hstep] at h
      obtain ⟨ws, hws, hcount⟩ := ih st1 st' h
      rcases stepFile_write_char cfg env source target cb st f st1 hstep with
        ⟨h1, h2⟩ | ⟨j, w, h1, h2, h3, h4⟩
      · exact ⟨ws, by rw [hws, h1], by rw [hcount, h2]⟩
      · refine ⟨(f, j.target.path, w) :: ws, ?_, ?_⟩
        · rw [hws, h3]
          simp
        · rw [hcount, h4]
          cases w <;> simp <;> omega

/-- **C8** (counterexample): the claim states that after a successful write
the job record no longer holds the transformed bytes.  In a run where both
writes succeed, the final job records still carry their full output
buffers — nothing is discarded. -/
theorem c8_counterexample :
    ((run cfgOff baseEnv "src" "dist" none []).toOption.map
      (fun r => (r.stats.written, r.writeCalls.map (fun w => w.2.2),
                 r.jobs.map FileData.buffer))) =
    some (2, [true, true], [some [10, 11], some [12]]) := by
  decide

/-- **C8** (amended): for every file whose write succeeds `stats.written`
is incremented (and `stats.written` counts exactly the successful write
calls of the run), but the in-memory output buffer is *not* discarded: the
job record appended for a written file still holds the transformed bytes
after the write step. -/
theorem c8_write_success (cfg : Config) (env : Env) :
    (∀ (source : SourceObj) (target : TargetObj) (cb : Option Cb) (st : LoopState)
       (fp : String) (st' : LoopState),
       stepFile cfg env source target cb st fp = .ok st' →
       (st'.writeCalls = st.writeCalls ∧ st'.stats.written = st.stats.written) ∨
       (∃ j w, st'.jobs = st.jobs ++ [j] ∧ j.buffer ≠ none ∧
          st'.writeCalls = st.writeCalls ++ [(fp, j.target.path, w)] ∧
          st'.stats.written = st.stats.written + (if w then 1 else 0))) ∧
    (∀ (s t : String) (cb : Option Cb) (m0 : JsMap) (r : RunResult),
       run cfg env s t cb m0 = .ok r →
       r.stats.written = (r.writeCalls.filter (fun w => w.2.2)).length) := by
  refine ⟨fun source target cb st fp st' h =>
    stepFile_write_char cfg env source target cb st fp st' h, ?_⟩
  intro s t cb m0 r h
  obtain ⟨source, target, hm, m1, log0, st, hrs, hrt, hlm, hrf, hmap, hjobs, hlog, hcb,
    hwc, hat, hsrc, hpr, hwr, hsk, hSs, hSt, hdirs, hhm, hpc, hmw⟩ :=
    run_decomp cfg env s t cb m0 r h
  obtain ⟨ws, hws, hcount⟩ :=
    runFiles_written_count cfg env source target cb source.files _ st hrf
  rw [hwr, hwc, hcount, hws]
  simp [initState]

theorem c8_witness :
    ∃ r, run cfgLenient baseEnv "src" "dist" none [] = .ok r ∧
      r.stats.written = (r.writeCalls.filter (fun w => w.2.2)).length :=
  ⟨_, rfl, (c8_write_success cfgLenient baseEnv).2 "src" "dist" none [] _ rfl⟩

/-! ### C2 — directory creation failure handling -/

/-- If `_requireDirectory` reports the directory available, it never touched
the `failed` record. -/
theorem reqDir_failed_of_available (cfg : Config) (env : Env) (d : String)
    (dirs : DirStats) (h : (requireDirectory cfg env d dirs).available = true) :
    (requireDirectory cfg env d dirs).dirs.failed = dirs.failed := by
  unfold requireDirectory at h ⊢
  repeat' split at h <;> simp_all
  repeat' split <;> simp_all

/-- Two files in the same uncreatable subdirectory, under an environment
whose directory creation always fails. -/
def envC2 : Env :=
  { baseEnv with
    read := fun p =>
      if p = "src/sub/b.png" then .ok [12]
      else if p = "src/sub/c.png" then .ok [13]
      else .error (JsErr.base ("ENOENT: " ++ p))
  , fsExists := fun p =>
      p == "src" || p == "dist" || p == "src/sub/b.png" || p == "src/sub/c.png"
  , fileList := fun p => if p = "src" then ["src/sub/b.png", "src/sub/c.png"] else []
  , dirCreate := fun _ => .ok false }

/-- **C2** (counterexample): with two files destined for the same failing
directory, the directory is recorded in `stats.dirs.failed` twice — once
per file — and creation is attempted twice: `_requireDirectory` never
consults the `failed` list, and neither does the caller, so nothing is
memoized.  The claim's "exactly once"/"at most once" is false. -/
theorem c2_counterexample :
    ((run cfgOff envC2 "src" "dist" none []).toOption.map
      (fun r => (r.stats.dirs.failed, r.attempts))) =
      some (["dist/sub", "dist/sub"], ["dist/sub", "dist/sub"]) ∧
    ((run cfgOff envC2 "src" "dist" none []).toOption.map
      (fun r => (r.stats.written, r.writeCalls.length))) = some (0, 0) := by
  constructor <;> decide

/-- **C2** (amended): in a lenient run, each file destined for an
unavailable directory is skipped without any write call, with the directory
appended to `stats.dirs.failed` and one fresh creation attempt — once *per
such file*, not once per directory; files destined for the run root perform
no directory work at all and their write proceeds; directory availability
is a function of the environment alone (the `failed` record is never
consulted), and a file whose directory is available gets exactly its own
write call with nothing added to `failed`. -/
theorem c2_directory_failure (cfg : Config) (env : Env) :
    (∀ (source : SourceObj) (target : TargetObj) (st : LoopState) (fp : String)
       (st' : LoopState),
       cfg.strict = false →
       (optimizeFile cfg env (getFileData fp source target none)
         st.stats st.map source target).err = none →
       (optimizeFile cfg env (getFileData fp source target none)
         st.stats st.map source target).data.buffer ≠ none →
       (optimizeFile cfg env (getFileData fp source target none)
         st.stats st.map source target).data.rel ≠ "." →
       dirAvailable env (pathJoin
         (optimizeFile cfg env (getFileData fp source target none)
           st.stats st.map source target).data.target_root
         (optimizeFile cfg env (getFileData fp source target none)
           st.stats st.map source target).data.rel) = false →
       (∀ c ∈ st.stats.dirs.created, env.dirCreate c = .ok true) →
       stepFile cfg env source target none st fp = .ok st' →
       st'.writeCalls = st.writeCalls ∧
       st'.stats.written = st.stats.written ∧
       st'.stats.dirs.failed = st.stats.dirs.failed ++ [pathJoin
         (optimizeFile cfg env (getFileData fp source target none)
           st.stats st.map source target).data.target_root
         (optimizeFile cfg env (getFileData fp source target none)
           st.stats st.map source target).data.rel] ∧
       st'.attempts = st.attempts ++ [pathJoin
         (optimizeFile cfg env (getFileData fp source target none)
           st.stats st.map source target).data.target_root
         (optimizeFile cfg env (getFileData fp source target none)
           st.stats st.map source target).data.rel]) ∧
    (∀ (source : SourceObj) (target : TargetObj) (st : LoopState) (fp : String)
       (st' : LoopState),
       cfg.strict = false →
       (optimizeFile cfg env (getFileData fp source target none)
         st.stats st.map source target).err = none →
       (optimizeFile cfg env (getFileData fp source target none)
         st.stats st.map source target).data.buffer ≠ none →
       (optimizeFile cfg env (getFileData fp source target none)
         st.stats st.map source target).data.rel = "." →
       stepFile cfg env source target none st fp = .ok st' →
       st'.stats.dirs = st.stats.dirs ∧ st'.attempts = st.attempts ∧
       st'.writeCalls = st.writeCalls ++ [(fp,
         (optimizeFile cfg env (getFileData fp source target none)
           st.stats st.map source target).data.target.path,
         env.write (optimizeFile cfg env (getFileData fp source target none)
           st.stats st.map source target).data.target.path
           ((optimizeFile cfg env (getFileData fp source target none)
             st.stats st.map source target).data.buffer.getD []))]) ∧
    (∀ (d : String) (dirs : DirStats),
       (∀ c ∈ dirs.created, env.dirCreate c = .ok true) →
       (requireDirectory cfg env d dirs).available = dirAvailable env d ∧
       ((requireDirectory cfg env d dirs).available = true →
        (requireDirectory cfg env d dirs).dirs.failed = dirs.failed)) := by
  refine ⟨?_, ?_, ?_⟩
  · intro source target st fp st' hs hre hbuf hrel hdav hinv h
    rw [stepFile_ok_case cfg env source target none st fp hre] at h
    set r := optimizeFile cfg env (getFileData fp source target none)
      st.stats st.map source target with hrdef
    obtain ⟨hsrc, hhm, hwr, hpr, hdirs, hpc, herr, hnob, hyes⟩ :=
      optimizeFile_fields cfg env _ st.stats st.map source target r rfl hrdef.symm
    set stats1 := (if r.data.buffer.isSome then
        { r.stats with processed := r.stats.processed + 1 } else r.stats) with hs1
    have hs1dirs : stats1.dirs = st.stats.dirs := by
      rw [hs1]
      split <;> simpa using hdirs
    have hs1wr : stats1.written = st.stats.written := by
      rw [hs1]
      split <;> simpa using hwr
    rw [afterOpt_dir cfg env none st fp r.data stats1 r.map st.log rfl hbuf hrel] at h
    dsimp only at h
    rw [hs1dirs] at h
    set d := pathJoin r.data.target_root r.data.rel with hddef
    have hcont : st.stats.dirs.created.contains d = false := by
      cases hx : st.stats.dirs.created.contains d
      · rfl
      · exfalso
        have hmem : d ∈ st.stats.dirs.created := by simpa using hx
        have := hinv d hmem
        rw [dirAvailable, this] at hdav
        simp at hdav
    have hnex : ¬(env.fsExists d = true ∧ env.isDir d = true) := by
      rintro ⟨h1, h2⟩
      rw [dirAvailable, h1, h2] at hdav
      simp at hdav
    have hfail : env.dirCreate d = .ok false ∨ ∃ er, env.dirCreate d = .error er := by
      cases hdc : env.dirCreate d with
      | ok b =>
        cases b
        · exact Or.inl rfl
        · exfalso
          rw [dirAvailable, hdc] at hdav
          simp at hdav
      | error er => exact Or.inr ⟨er, rfl⟩
    obtain ⟨hq1, hq2, hq3, hq4, hq5⟩ :=
      reqDir_fail_lenient cfg env d st.stats.dirs hs hcont hnex hfail
    rw [hq4] at h
    rw [if_pos hq1, hq3] at h
    rw [if_pos rfl] at h
    cases Except.ok.inj h
    refine ⟨rfl, ?_, ?_, rfl⟩
    · simpa using hs1wr
    · dsimp only
      rw [hq2]
  · intro source target st fp st' hs hre hbuf hrel h
    rw [stepFile_ok_case cfg env source target none st fp hre] at h
    set r := optimizeFile cfg env (getFileData fp source target none)
      st.stats st.map source target with hrdef
    obtain ⟨hsrc, hhm, hwr, hpr, hdirs, hpc, herr, hnob, hyes⟩ :=
      optimizeFile_fields cfg env _ st.stats st.map source target r rfl hrdef.symm
    set stats1 := (if r.data.buffer.isSome then
        { r.stats with processed := r.stats.processed + 1 } else r.stats) with hs1
    have hs1dirs : stats1.dirs = st.stats.dirs := by
      rw [hs1]
      split <;> simpa using hdirs
    rw [afterOpt_root cfg env none st fp r.data stats1 r.map st.log rfl hbuf hrel] at h
    cases hw : env.write r.data.target.path (r.data.buffer.getD []) with
    | true =>
      rw [doWrite_ok cfg env st fp r.data stats1 r.map st.log _ _ hw] at h
      cases Except.ok.inj h
      refine ⟨?_, rfl, ?_⟩
      · simpa using hs1dirs
      · rfl
    | false =>
      rw [doWrite_fail_lenient cfg env st fp r.data stats1 r.map st.log _ _ hs hw] at h
      cases Except.ok.inj h
      refine ⟨?_, rfl, ?_⟩
      · simpa using hs1dirs
      · rfl
  · intro d dirs hinv
    refine ⟨reqDir_available_char cfg env d dirs hinv, ?_⟩
    exact reqDir_failed_of_available cfg env d dirs

/-- The resolved source object of `envC2`. -/
def srcC2 : SourceObj :=
  { root := "src", source := "src", resolved := "src"
  , files := ["src/sub/b.png", "src/sub/c.png"] }

theorem c2_witness :
    (∃ st', stepFile cfgOff envC2 srcC2 tgtObjW none
        (initState srcC2 none [] []) ("src/sub/b.png") = .ok st' ∧
      st'.writeCalls = [] ∧ st'.stats.written = 0 ∧
      st'.stats.dirs.failed = ["dist/sub"] ∧ st'.attempts = ["dist/sub"]) ∧
    (∃ st', stepFile cfgLenient baseEnv srcObjW tgtObjW none
        (initState srcObjW (some ("src/.minify-images.map")) [] []) ("src/a.png") =
        .ok st' ∧
      st'.stats.dirs = { created := [], failed := [] } ∧ st'.attempts = []) := by
  constructor
  · obtain ⟨st', hst⟩ : ∃ st', stepFile cfgOff envC2 srcC2 tgtObjW none
        (initState srcC2 none [] []) ("src/sub/b.png") = .ok st' := ⟨_, rfl⟩
    have hc := (c2_directory_failure cfgOff envC2).1 srcC2 tgtObjW
      (initState srcC2 none [] []) ("src/sub/b.png") st' rfl rfl (by decide) (by decide)
      (by decide) (by intro c hc; simp [initState] at hc) hst
    refine ⟨st', hst, ?_, ?_, ?_, ?_⟩
    · rw [hc.1]
      rfl
    · rw [hc.2.1]
      rfl
    · rw [hc.2.2.1]
      decide
    · rw [hc.2.2.2]
      decide
  · obtain ⟨st', hst⟩ : ∃ st', stepFile cfgLenient baseEnv srcObjW tgtObjW none
        (initState srcObjW (some ("src/.minify-images.map")) [] []) ("src/a.png") =
        .ok st' := ⟨_, rfl⟩
    have hc := (c2_directory_failure cfgLenient baseEnv).2.1 srcObjW tgtObjW
      (initState srcObjW (some ("src/.minify-images.map")) [] []) ("src/a.png") st'
      rfl rfl (by decide) (by decide) hst
    refine ⟨st', hst, ?_, ?_⟩
    · rw [hc.1]
      rfl
    · rw [hc.2.1]
      rfl

/-! ### C5 — fingerprint key vs output extension -/

theorem readData_source_type (cfg : Config) (env : Env) (d : FileData) (b : List Nat) :
    (readData cfg env d b).source_type = some (typeOfBuffer env b d) := by
  unfold readData
  by_cases h : cfg.map = true <;> simp [h]

/-- `typeOfBuffer` depends on the job record only through the source
extension. -/
theorem typeOfBuffer_source_ext (env : Env) (b : List Nat) (f f' : FileData)
    (h : f.source.ext = f'.source.ext) :
    typeOfBuffer env b f = typeOfBuffer env b f' := by
  unfold typeOfBuffer strTail
  rw [h]

/-- **C5**: the fingerprint key is `join(rel, sourceName + sourceExt)`,
derived from the original source name and extension; a file whose output
mime differs from its input mime has its target path recomputed with the
new extension, yet the key of the mutated record is unchanged, the map
holds the source-content hash under that key, and a changed source content
(different hash) under the same name is detected as changed by the next
skip decision. -/
theorem c5_fingerprint_key (cfg : Config) (env : Env) (source : SourceObj)
    (target : TargetObj) (fp : String) (stats : Stats) (m : JsMap) (buf out : List Nat)
    (hmap : cfg.map = true)
    (hread : env.read fp = .ok buf)
    (htr : env.transform buf = .ok out)
    (hmime : (typeOfBuffer env buf (getFileData fp source target none)).mime ≠
             (typeOfBuffer env out (getFileData fp source target none)).mime)
    (hdec : jsStrictEq (mapGet m (mapKey (getFileData fp source target none)))
      (some (env.hashFn buf)) = false) :
    (optimizeFile cfg env (getFileData fp source target none)
      stats m source target).err = none ∧
    (optimizeFile cfg env (getFileData fp source target none)
      stats m source target).data.target =
      (getFileData fp source target
        (some ("." ++ (typeOfBuffer env out (getFileData fp source target none)).ext))).target ∧
    mapKey (optimizeFile cfg env (getFileData fp source target none)
      stats m source target).data = mapKey (getFileData fp source target none) ∧
    mapKey (getFileData fp source target none) =
      pathJoin (getFileData fp source target none).rel
        ((getFileData fp source target none).source.name ++
         (getFileData fp source target none).source.ext) ∧
    mapGet (optimizeFile cfg env (getFileData fp source target none)
        stats m source target).map (mapKey (getFileData fp source target none)) =
      some (some (env.hashFn buf)) ∧
    (∀ h', h' ≠ env.hashFn buf →
      (shouldOptimize cfg
        { (optimizeFile cfg env (getFileData fp source target none)
            stats m source target).data with hash := some h' }
        (optimizeFile cfg env (getFileData fp source target none)
          stats m source target).map).1 = true) := by
  have hpath : (getFileData fp source target none).source.path = fp := rfl
  have hkey2 : mapKey (readData cfg env (getFileData fp source target none) buf) =
      mapKey (getFileData fp source target none) :=
    readData_mapKey cfg env _ buf
  have hhash2 : (readData cfg env (getFileData fp source target none) buf).hash =
      some (env.hashFn buf) :=
    readData_hash_on cfg env _ buf hmap
  have hso := shouldOptimize_miss cfg
    (readData cfg env (getFileData fp source target none) buf) m hmap
    (by rw [hkey2, hhash2]; exact hdec)
  have htt : typeOfBuffer env out (readData cfg env (getFileData fp source target none) buf) =
      typeOfBuffer env out (getFileData fp source target none) :=
    typeOfBuffer_source_ext env out
      (readData cfg env (getFileData fp source target none) buf)
      (getFileData fp source target none) (by rw [readData_source])
  have hsp2 : (readData cfg env (getFileData fp source target none) buf).source.path = fp := by
    rw [readData_source]
    exact hpath
  have htgt : (transformedData env source target
      (readData cfg env (getFileData fp source target none) buf) buf out).target =
      (getFileData fp source target
        (some ("." ++ (typeOfBuffer env out (getFileData fp source target none)).ext))).target := by
    unfold transformedData
    dsimp only
    rw [readData_source_type, htt]
    rw [if_pos (by simpa using hmime)]
    dsimp only
    rw [hsp2]
  have hmget : mapGet (mapSet m
      (mapKey (readData cfg env (getFileData fp source target none) buf))
      (readData cfg env (getFileData fp source target none) buf).hash)
      (mapKey (getFileData fp source target none)) = some (some (env.hashFn buf)) := by
    rw [hkey2, hhash2, mapGet_mapSet_self]
  unfold optimizeFile
  rw [hpath, hread]
  dsimp only
  rw [hso]
  dsimp only
  rw [if_neg (by simp), htr]
  dsimp only
  refine ⟨rfl, htgt, ?_, rfl, hmget, ?_⟩
  · exact (transformedData_mapKey env source target _ buf out).trans hkey2
  · intro h' hne
    have hkeyU : mapKey { (transformedData env source target
        (readData cfg env (getFileData fp source target none) buf) buf out) with
        hash := some h' } = mapKey (getFileData fp source target none) :=
      (transformedData_mapKey env source target _ buf out).trans hkey2
    unfold shouldOptimize
    rw [hmap]
    dsimp only
    rw [hkeyU, hmget]
    have hbeq : (jsStrictEq (some (some (env.hashFn buf))) (some h')) = false := by
      show (some (env.hashFn buf) == some h' : Bool) = false
      cases hq : (some (env.hashFn buf) == some h' : Bool)
      · rfl
      · exact absurd (Option.some.inj (eq_of_beq hq)).symm hne
    rw [hbeq]
    simp

/-- An environment whose detector types the 2-byte input as png but the
3-byte transform output as webp, forcing a retype. -/
def envC5 : Env :=
  { baseEnv with
    detect := fun b =>
      if b.length = 2 then some { ext := "png", mime := "image/png" }
      else some { ext := "webp", mime := "image/webp" }
  , transform := fun _ => .ok [9, 9, 9] }

theorem c5_witness :
    (optimizeFile cfgLenient envC5 (getFileData ("src/a.png") srcObjW tgtObjW none)
      (initState srcObjW none [] []).stats [] srcObjW tgtObjW).err = none ∧
    (optimizeFile cfgLenient envC5 (getFileData ("src/a.png") srcObjW tgtObjW none)
      (initState srcObjW none [] []).stats [] srcObjW tgtObjW).data.target.path =
      "dist/a.webp" ∧
    mapKey (optimizeFile cfgLenient envC5 (getFileData ("src/a.png") srcObjW tgtObjW none)
      (initState srcObjW none [] []).stats [] srcObjW tgtObjW).data = "a.png" ∧
    mapGet (optimizeFile cfgLenient envC5 (getFileData ("src/a.png") srcObjW tgtObjW none)
        (initState srcObjW none [] []).stats [] srcObjW tgtObjW).map ("a.png") =
      some (some "h2") ∧
    (shouldOptimize cfgLenient
      { (optimizeFile cfgLenient envC5 (getFileData ("src/a.png") srcObjW tgtObjW none)
          (initState srcObjW none [] []).stats [] srcObjW tgtObjW).data with
        hash := some "h9" }
      (optimizeFile cfgLenient envC5 (getFileData ("src/a.png") srcObjW tgtObjW none)
        (initState srcObjW none [] []).stats [] srcObjW tgtObjW).map).1 = true := by
  have hc := c5_fingerprint_key cfgLenient envC5 srcObjW tgtObjW ("src/a.png")
    (initState srcObjW none [] []).stats [] [10, 11] [9, 9, 9]
    rfl rfl rfl (by decide) (by decide)
  have hkey : mapKey (getFileData ("src/a.png") srcObjW tgtObjW none) = "a.png" := by
    decide
  refine ⟨hc.1, ?_, ?_, ?_, ?_⟩
  · rw [hc.2.1]
    decide
  · rw [hc.2.2.1, hkey]
  · rw [← hkey]
    exact (hc.2.2.2.2.1).trans (by decide)
  · exact hc.2.2.2.2.2 ("h9") (by decide)

/-! ### C4 — error propagation policy -/

theorem optimizeFile_read_err (cfg : Config) (env : Env) (d0 : FileData) (stats : Stats)
    (m : JsMap) (src : SourceObj) (tgt : TargetObj) (e : JsErr)
    (h : env.read d0.source.path = .error e) :
    (optimizeFile cfg env d0 stats m src tgt).err = some e := by
  unfold optimizeFile
  rw [h]

theorem optimizeFile_transform_err (cfg : Config) (env : Env) (d0 : FileData)
    (stats : Stats) (m : JsMap) (src : SourceObj) (tgt : TargetObj) (buf : List Nat)
    (e : JsErr)
    (hread : env.read d0.source.path = .ok buf)
    (hso : (shouldOptimize cfg (readData cfg env d0 buf) m).1 = true)
    (htr : env.transform buf = .error e) :
    (optimizeFile cfg env d0 stats m src tgt).err = some e := by
  unfold optimizeFile
  rw [hread]
  dsimp only
  rw [hso]
  rw [if_neg (by simp), htr]

/-- An environment where reading the root file fails. -/
def envC4 : Env :=
  { baseEnv with
    read := fun p =>
      if p = "src/sub/b.png" then .ok [12]
      else .error (JsErr.base ("EIO: " ++ p)) }

/-- **C4** (counterexample): in a lenient run where the first file's read
fails, the run completes (`.ok`), the error is passed to the reporter
channel (one log entry) and processing continues (the second file is
written) — but the failed file's job record at the end of the run is
byte-for-byte the pristine record built by `_getFileData`: the code has no
per-file error list, so nothing was recorded on the file itself, contrary
to the claim. -/
theorem c4_counterexample :
    ((run cfgOff envC4 "src" "dist" none []).toOption.map (fun r =>
       (r.log.length, r.stats.written))) = some (1, 1) ∧
    ((run cfgOff envC4 "src" "dist" none []).toOption.map (fun r => r.jobs.head?)) =
      some (some (getFileData ("src/a.png") srcObjW tgtObjW none)) := by
  constructor <;> decide

/-- **C4** (amended): in strict mode every error kind — per-file read,
transform, directory-create and write failures — aborts the run
immediately with the underlying cause chained, and the remaining files are
never processed; in lenient mode per-file errors are reported through the
non-throwing reporter channel (appended to the log, with the cause
chained) and processing continues with the next file — but they are *not*
recorded on any per-file error list, the job record stays as it was; and
run-level errors (SourceNotFound, EmptySource, InvalidTarget) abort
immediately in both modes. -/
theorem c4_error_policy (cfg : Config) (env : Env) :
    (∀ (source : SourceObj) (target : TargetObj) (cb : Option Cb) (st : LoopState)
       (fp : String) (e : JsErr),
       cfg.strict = true → env.read fp = .error e →
       stepFile cfg env source target cb st fp =
         .error (JsErr.wrap ("Optimize failed for: " ++ fp) e)) ∧
    (∀ (source : SourceObj) (target : TargetObj) (cb : Option Cb) (st : LoopState)
       (fp : String) (buf : List Nat) (e : JsErr),
       cfg.strict = true → env.read fp = .ok buf →
       (shouldOptimize cfg (readData cfg env (getFileData fp source target none) buf)
         st.map).1 = true →
       env.transform buf = .error e →
       stepFile cfg env source target cb st fp =
         .error (JsErr.wrap ("Optimize failed for: " ++ fp) e)) ∧
    (∀ (source : SourceObj) (target : TargetObj) (st : LoopState) (fp : String)
       (ex : JsErr),
       (optimizeFile cfg env (getFileData fp source target none)
         st.stats st.map source target).err = none →
       (optimizeFile cfg env (getFileData fp source target none)
         st.stats st.map source target).data.buffer ≠ none →
       (optimizeFile cfg env (getFileData fp source target none)
         st.stats st.map source target).data.rel ≠ "." →
       (requireDirectory cfg env (pathJoin
         (optimizeFile cfg env (getFileData fp source target none)
           st.stats st.map source target).data.target_root
         (optimizeFile cfg env (getFileData fp source target none)
           st.stats st.map source target).data.rel) st.stats.dirs).thrown = some ex →
       stepFile cfg env source target none st fp = .error ex) ∧
    (∀ (source : SourceObj) (target : TargetObj) (st : LoopState) (fp : String),
       cfg.strict = true →
       (optimizeFile cfg env (getFileData fp source target none)
         st.stats st.map source target).err = none →
       (optimizeFile cfg env (getFileData fp source target none)
         st.stats st.map source target).data.buffer ≠ none →
       (optimizeFile cfg env (getFileData fp source target none)
         st.stats st.map source target).data.rel = "." →
       env.write (optimizeFile cfg env (getFileData fp source target none)
           st.stats st.map source target).data.target.path
         ((optimizeFile cfg env (getFileData fp source target none)
           st.stats st.map source target).data.buffer.getD []) = false →
       stepFile cfg env source target none st fp =
         .error (JsErr.base ("Failed to write: " ++
           (optimizeFile cfg env (getFileData fp source target none)
             st.stats st.map source target).data.target.path))) ∧
    (∀ (source : SourceObj) (target : TargetObj) (cb : Option Cb) (st st1 : LoopState)
       (l1 l2 : List String) (fp : String) (E : JsErr),
       runFiles cfg env source target cb st l1 = .ok st1 →
       stepFile cfg env source target cb st1 fp = .error E →
       runFiles cfg env source target cb st (l1 ++ fp :: l2) = .error E) ∧
    (∀ (source : SourceObj) (target : TargetObj) (cb : Option Cb) (st : LoopState)
       (l : List String),
       cfg.strict = false → ∃ st', runFiles cfg env source target cb st l = .ok st') ∧
    (∀ (source : SourceObj) (target : TargetObj) (cb : Option Cb) (st : LoopState)
       (fp : String) (e : JsErr) (st' : LoopState),
       cfg.strict = false →
       (optimizeFile cfg env (getFileData fp source target none)
         st.stats st.map source target).err = some e →
       stepFile cfg env source target cb st fp = .ok st' →
       st'.log = st.log ++ [JsErr.wrap ("Optimize failed for: " ++ fp) e] ∧
       st'.jobs = st.jobs ++ [(optimizeFile cfg env (getFileData fp source target none)
         st.stats st.map source target).data]) ∧
    (∀ (s t : String) (cb : Option Cb) (m0 : JsMap),
       (env.fsExists s = false →
         run cfg env s t cb m0 = .error (JsErr.base ("Source not found: " ++ s))) ∧
       (env.fsExists s = true → env.isDir s = true → env.fileList s = [] →
         run cfg env s t cb m0 = .error (JsErr.base ("Source is empty: " ++ s))) ∧
       (∀ so, resolveSource env s = .ok so → env.fsExists t = true →
         env.isDir t = false →
         run cfg env s t cb m0 = .error (JsErr.base ("Target must be a directory: " ++ t)))) := by
  refine ⟨?_, ?_, ?_, ?_, ?_, ?_, ?_, ?_⟩
  · intro source target cb st fp e hs hread
    exact stepFile_err_strict cfg env source target cb st fp e hs
      (optimizeFile_read_err cfg env _ st.stats st.map source target e hread)
  · intro source target cb st fp buf e hs hread hso htr
    exact stepFile_err_strict cfg env source target cb st fp e hs
      (optimizeFile_transform_err cfg env _ st.stats st.map source target buf e hread hso htr)
  · intro source target st fp ex hre hbuf hrel hth
    rw [stepFile_ok_case cfg env source target none st fp hre]
    set r := optimizeFile cfg env (getFileData fp source target none)
      st.stats st.map source target with hrdef
    obtain ⟨hsrc, hhm, hwr, hpr, hdirs, hpc, herr, hnob, hyes⟩ :=
      optimizeFile_fields cfg env _ st.stats st.map source target r rfl hrdef.symm
    set stats1 := (if r.data.buffer.isSome then
        { r.stats with processed := r.stats.processed + 1 } else r.stats) with hs1
    have hs1dirs : stats1.dirs = st.stats.dirs := by
      rw [hs1]
      split <;> simpa using hdirs
    rw [afterOpt_dir cfg env none st fp r.data stats1 r.map st.log rfl hbuf hrel]
    dsimp only
    rw [hs1dirs, hth]
  · intro source target st fp hs hre hbuf hrel hw
    rw [stepFile_ok_case cfg env source target none st fp hre]
    set r := optimizeFile cfg env (getFileData fp source target none)
      st.stats st.map source target with hrdef
    set stats1 := (if r.data.buffer.isSome then
        { r.stats with processed := r.stats.processed + 1 } else r.stats) with hs1
    rw [afterOpt_root cfg env none st fp r.data stats1 r.map st.log rfl hbuf hrel]
    exact doWrite_fail_strict cfg env st fp r.data stats1 r.map st.log _ _ hs hw
  · intro source target cb st st1 l1 l2 fp E h1 h2
    rw [runFiles_append cfg env source target cb st l1 (fp :: l2), h1]
    unfold runFiles
    rw [h2]
  · intro source target cb st l hs
    exact runFiles_lenient_total cfg env source target cb hs l st
  · intro source target cb st fp e st' hs hre h
    rw [stepFile_err_lenient cfg env source target cb st fp e hs hre] at h
    have hbn := ((optimizeFile_fields cfg env (getFileData fp source target none)
      st.stats st.map source target _ rfl rfl).2.2.2.2.2.2.1 (by simp [hre])).2
    rw [afterOpt_skip_gate cfg env cb st fp _ _ _ _ (Or.inr hbn)] at h
    cases Except.ok.inj h
    exact ⟨rfl, rfl⟩
  · intro s t cb m0
    refine ⟨?_, ?_, ?_⟩
    · intro hex
      unfold run resolveSource
      dsimp only
      rw [hex]
      simp
    · intro hex hdir hfl
      unfold run resolveSource
      dsimp only
      rw [hex, hdir, hfl]
      simp
    · intro so hso hex hdir
      unfold run
      rw [hso]
      dsimp only
      unfold resolveTarget
      dsimp only
      rw [hex, hdir]
      simp

theorem c4_witness :
    (stepFile cfgStrict envC4 srcObjW tgtObjW none
        (initState srcObjW (some ("src/.minify-images.map")) [] []) ("src/a.png") =
      .error (JsErr.wrap ("Optimize failed for: src/a.png")
        (JsErr.base ("EIO: src/a.png")))) ∧
    (∃ st', stepFile cfgOff envC4 srcObjW tgtObjW none
        (initState srcObjW none [] []) ("src/a.png") = .ok st' ∧
      st'.log = [JsErr.wrap ("Optimize failed for: src/a.png")
        (JsErr.base ("EIO: src/a.png"))]) ∧
    run cfgOff envC4 "nosuch" "dist" none [] =
      .error (JsErr.base ("Source not found: nosuch")) := by
  refine ⟨?_, ?_, ?_⟩
  · exact (c4_error_policy cfgStrict envC4).1 srcObjW tgtObjW none _ ("src/a.png")
      (JsErr.base ("EIO: src/a.png")) rfl rfl
  · obtain ⟨st', hst⟩ : ∃ st', stepFile cfgOff envC4 srcObjW tgtObjW none
        (initState srcObjW none [] []) ("src/a.png") = .ok st' := ⟨_, rfl⟩
    have := (c4_error_policy cfgOff envC4).2.2.2.2.2.2.1 srcObjW tgtObjW none _
      ("src/a.png") (JsErr.base ("EIO: src/a.png")) st' rfl (by decide) hst
    exact ⟨st', hst, by rw [this.1]; rfl⟩
  · exact ((c4_error_policy cfgOff envC4).2.2.2.2.2.2.2 "nosuch" "dist" none []).1
      (by decide)

/-! ### C6 — idempotence of a second run -/

theorem jsStrictEq_true (o : Option (Option String)) (h : Option String)
    (hq : jsStrictEq o h = true) : o = some h := by
  cases o with
  | none => exact absurd hq (by simp [jsStrictEq])
  | some v =>
    have : (v == h) = true := hq
    rw [eq_of_beq this]

/-- After a successful read, the map component of `_optimizeFile` is exactly
what the skip decision produced, whatever happens downstream. -/
theorem optimizeFile_map_char (cfg : Config) (env : Env) (d0 : FileData) (stats : Stats)
    (m : JsMap) (src : SourceObj) (tgt : TargetObj) (buf : List Nat)
    (hread : env.read d0.source.path = .ok buf) :
    (optimizeFile cfg env d0 stats m src tgt).map =
      (shouldOptimize cfg (readData cfg env d0 buf) m).2 := by
  unfold optimizeFile
  rw [hread]
  dsimp only
  cases hdec : (shouldOptimize cfg (readData cfg env d0 buf) m).1 with
  | false => simp
  | true =>
    rw [if_neg (by simp)]
    cases htb : env.transform buf <;> rfl

/-- A cache hit: `_optimizeFile` only bumps `skipped` and leaves record
buffer, map and the other counters alone. -/
theorem optimizeFile_skip (cfg : Config) (env : Env) (d0 : FileData) (stats : Stats)
    (m : JsMap) (src : SourceObj) (tgt : TargetObj) (buf : List Nat)
    (hread : env.read d0.source.path = .ok buf)
    (hdec : (shouldOptimize cfg (readData cfg env d0 buf) m).1 = false) :
    optimizeFile cfg env d0 stats m src tgt =
      ⟨readData cfg env d0 buf, { stats with skipped := stats.skipped + 1 },
       (shouldOptimize cfg (readData cfg env d0 buf) m).2, none⟩ := by
  unfold optimizeFile
  rw [hread]
  dsimp only
  rw [hdec]
  rw [if_pos rfl]

/-- One iteration with fingerprinting on and a successful read: the final
map holds the file's key with its fresh content hash, all other keys are
untouched. -/
theorem stepFile_map_update (cfg : Config) (env : Env) (source : SourceObj)
    (target : TargetObj) (cb : Option Cb) (st : LoopState) (fp : String)
    (st' : LoopState) (buf : List Nat)
    (hmap : cfg.map = true) (hread : env.read fp = .ok buf)
    (h : stepFile cfg env source target cb st fp = .ok st') :
    mapGet st'.map (mapKey (getFileData fp source target none)) =
      some (some (env.hashFn buf)) ∧
    (∀ k, k ≠ mapKey (getFileData fp source target none) →
      mapGet st'.map k = mapGet st.map k) := by
  have hpath : (getFileData fp source target none).source.path = fp := rfl
  have hread' : env.read (getFileData fp source target none).source.path = .ok buf := by
    rw [hpath]
    exact hread
  have hkey2 : mapKey (readData cfg env (getFileData fp source target none) buf) =
      mapKey (getFileData fp source target none) :=
    readData_mapKey cfg env _ buf
  have hhash2 : (readData cfg env (getFileData fp source target none) buf).hash =
      some (env.hashFn buf) :=
    readData_hash_on cfg env _ buf hmap
  have hm := stepFile_map cfg env source target cb st fp st' h
  rw [optimizeFile_map_char cfg env _ st.stats st.map source target buf hread'] at hm
  cases hq : jsStrictEq
      (mapGet st.map (mapKey (readData cfg env (getFileData fp source target none) buf)))
      (readData cfg env (getFileData fp source target none) buf).hash with
  | true =>
    rw [shouldOptimize_hit cfg _ st.map hmap hq] at hm
    have hstored := jsStrictEq_true _ _ hq
    rw [hkey2, hhash2] at hstored
    rw [hm]
    exact ⟨hstored, fun k _ => rfl⟩
  | false =>
    rw [shouldOptimize_miss cfg _ st.map hmap hq] at hm
    rw [hm, hkey2, hhash2]
    exact ⟨mapGet_mapSet_self st.map _ _,
      fun k hk => mapGet_mapSet_ne st.map _ k _ hk⟩

/-- A cache hit skips the file: `skipped` is bumped, nothing is written,
the map and the other counters are untouched. -/
theorem stepFile_skip (cfg : Config) (env : Env) (source : SourceObj)
    (target : TargetObj) (cb : Option Cb) (st : LoopState) (fp : String) (buf : List Nat)
    (hmap : cfg.map = true) (hread : env.read fp = .ok buf)
    (hstored : mapGet st.map (mapKey (getFileData fp source target none)) =
      some (some (env.hashFn buf))) :
    ∃ st', stepFile cfg env source target cb st fp = .ok st' ∧
      st'.map = st.map ∧
      st'.stats.skipped = st.stats.skipped + 1 ∧
      st'.stats.written = st.stats.written ∧
      st'.stats.sources = st.stats.sources ∧
      st'.stats.processed = st.stats.processed ∧
      st'.writeCalls = st.writeCalls := by
  have hpath : (getFileData fp source target none).source.path = fp := rfl
  have hread' : env.read (getFileData fp source target none).source.path = .ok buf := by
    rw [hpath]
    exact hread
  have hkey2 : mapKey (readData cfg env (getFileData fp source target none) buf) =
      mapKey (getFileData fp source target none) :=
    readData_mapKey cfg env _ buf
  have hhash2 : (readData cfg env (getFileData fp source target none) buf).hash =
      some (env.hashFn buf) :=
    readData_hash_on cfg env _ buf hmap
  have hq : jsStrictEq
      (mapGet st.map (mapKey (readData cfg env (getFileData fp source target none) buf)))
      (readData cfg env (getFileData fp source target none) buf).hash = true := by
    rw [hkey2, hhash2, hstored]
    show (some (env.hashFn buf) == some (env.hashFn buf) : Bool) = true
    simp
  have hdec : (shouldOptimize cfg
      (readData cfg env (getFileData fp source target none) buf) st.map).1 = false := by
    rw [shouldOptimize_hit cfg _ st.map hmap hq]
  have hskip := optimizeFile_skip cfg env (getFileData fp source target none)
    st.stats st.map source target buf hread' hdec
  have hdec2 := shouldOptimize_hit cfg
    (readData cfg env (getFileData fp source target none) buf) st.map hmap hq
  have herr : (optimizeFile cfg env (getFileData fp source target none)
      st.stats st.map source target).err = none := by
    rw [hskip]
  have hbuf : (optimizeFile cfg env (getFileData fp source target none)
      st.stats st.map source target).data.buffer = none := by
    rw [hskip]
    show (readData cfg env (getFileData fp source target none) buf).buffer = none
    rw [readData_buffer]
    rfl
  have hstep := stepFile_ok_case cfg env source target cb st fp herr
  rw [afterOpt_skip_gate cfg env cb st fp _ _ _ _ (Or.inr hbuf)] at hstep
  refine ⟨_, hstep, ?_, ?_, ?_, ?_, ?_, ?_⟩
  · dsimp only
    rw [hskip]
    dsimp only
    rw [hdec2]
  · dsimp only
    rw [hbuf]
    simp only [Option.isSome_none, Bool.false_eq_true, if_false]
    rw [hskip]
  · dsimp only
    rw [hbuf]
    simp only [Option.isSome_none, Bool.false_eq_true, if_false]
    rw [hskip]
  · dsimp only
    rw [hbuf]
    simp only [Option.isSome_none, Bool.false_eq_true, if_false]
    rw [hskip]
  · dsimp only
    rw [hbuf]
    simp only [Option.isSome_none, Bool.false_eq_true, if_false]
    rw [hskip]
  · rfl

/-- Keys whose file never occurs in the remaining list are untouched by
the rest of the loop (fingerprinting on, all reads succeeding). -/
theorem runFiles_map_preserve (cfg : Config) (env : Env) (source : SourceObj)
    (target : TargetObj) (cb : Option Cb) (l : List String) :
    ∀ (st st' : LoopState),
      cfg.map = true →
      (∀ f ∈ l, ∃ b, env.read f = .ok b) →
      runFiles cfg env source target cb st l = .ok st' →
      ∀ k, (∀ f ∈ l, mapKey (getFileData f source target none) ≠ k) →
        mapGet st'.map k = mapGet st.map k := by
  induction l with
  | nil =>
    intro st st' _ _ h k _
    unfold runFiles at h
    cases Except.ok.inj h
    rfl
  | cons fp rest ih =>
    intro st st' hmap hreads h k hk
    unfold runFiles at h
    cases hs : stepFile cfg env source target cb st fp with
    | error e =>
      rw [hs] at h
      exact Except.noConfusion h
    | ok st1 =>
      rw [hs] at h
      obtain ⟨b, hb⟩ := hreads fp (List.mem_cons_self fp rest)
      have hupd := stepFile_map_update cfg env source target cb st fp st1 b hmap hb hs
      have hrest := ih st1 st' hmap (fun f hf => hreads f (List.mem_cons_of_mem fp hf)) h k
        (fun f hf => hk f (List.mem_cons_of_mem fp hf))
      rw [hrest]
      exact hupd.2 k (Ne.symm (hk fp (List.mem_cons_self fp rest)))

/-- After the loop, with fingerprinting on, all reads succeeding, and
key-sharing files having identical content, every file's key holds the
hash of its content. -/
theorem runFiles_map_coverage (cfg : Config) (env : Env) (source : SourceObj)
    (target : TargetObj) (cb : Option Cb) (l : List String) :
    ∀ (st st' : LoopState),
      cfg.map = true →
      (∀ f ∈ l, ∃ b, env.read f = .ok b) →
      (∀ f g, f ∈ l → g ∈ l →
        mapKey (getFileData f source target none) =
          mapKey (getFileData g source target none) →
        env.read f = env.read g) →
      runFiles cfg env source target cb st l = .ok st' →
      ∀ f ∈ l, ∀ b, env.read f = .ok b →
        mapGet st'.map (mapKey (getFileData f source target none)) =
          some (some (env.hashFn b)) := by
  induction l with
  | nil =>
    intro st st' _ _ _ _ f hf
    exact absurd hf (List.not_mem_nil f)
  | cons fp rest ih =>
    intro st st' hmap hreads hcoh h f hf b hb
    unfold runFiles at h
    cases hs : stepFile cfg env source target cb st fp with
    | error e =>
      rw [hs] at h
      exact Except.noConfusion h
    | ok st1 =>
      rw [hs] at h
      rcases List.mem_cons.mp hf with rfl | hfr
      · have hupd := stepFile_map_update cfg env source target cb st f st1 b hmap hb hs
        by_cases hex : ∃ g ∈ rest, mapKey (getFileData g source target none) =
            mapKey (getFileData f source target none)
        · obtain ⟨g, hg, hkg⟩ := hex
          have hrg : env.read g = env.read f :=
            hcoh g f (List.mem_cons_of_mem f hg) (List.mem_cons_self f rest) hkg
          have hgb : env.read g = .ok b := by
            rw [hrg, hb]
          have hcov := ih st1 st' hmap
            (fun x hx => hreads x (List.mem_cons_of_mem f hx))
            (fun x y hx hy hxy => hcoh x y (List.mem_cons_of_mem f hx)
              (List.mem_cons_of_mem f hy) hxy)
            h g hg b hgb
          rw [← hkg]
          exact hcov
        · push_neg at hex
          have hpres := runFiles_map_preserve cfg env source target cb rest st1 st' hmap
            (fun x hx => hreads x (List.mem_cons_of_mem f hx)) h
            (mapKey (getFileData f source target none))
            (fun g hg => hex g hg)
          rw [hpres]
          exact hupd.1
      · exact ih st1 st' hmap (fun x hx => hreads x (List.mem_cons_of_mem fp hx))
          (fun x y hx hy hxy => hcoh x y (List.mem_cons_of_mem fp hx)
            (List.mem_cons_of_mem fp hy) hxy)
          h f hfr b hb

/-- When every file of the list is a cache hit against the current map,
the whole loop succeeds, skips everything, writes nothing and leaves the
map unchanged. -/
theorem runFiles_all_skip (cfg : Config) (env : Env) (source : SourceObj)
    (target : TargetObj) (cb : Option Cb) (l : List String) :
    ∀ (st : LoopState),
      cfg.map = true →
      (∀ f ∈ l, ∃ b, env.read f = .ok b ∧
        mapGet st.map (mapKey (getFileData f source target none)) =
          some (some (env.hashFn b))) →
      ∃ st', runFiles cfg env source target cb st l = .ok st' ∧
        st'.map = st.map ∧
        st'.stats.skipped = st.stats.skipped + l.length ∧
        st'.stats.written = st.stats.written ∧
        st'.stats.sources = st.stats.sources ∧
        st'.writeCalls = st.writeCalls := by
  induction l with
  | nil =>
    intro st _ _
    exact ⟨st, rfl, rfl, rfl, rfl, rfl, rfl⟩
  | cons fp rest ih =>
    intro st hmap hall
    obtain ⟨b, hb, hstored⟩ := hall fp (List.mem_cons_self fp rest)
    obtain ⟨st1, hs, hm1, hsk1, hw1, hsrc1, hp1, hwc1⟩ :=
      stepFile_skip cfg env source target cb st fp b hmap hb hstored
    obtain ⟨st', hrun, hm2, hsk2, hw2, hsrc2, hwc2⟩ := ih st1 hmap
      (fun f hf => by
        obtain ⟨b', hb', hst'⟩ := hall f (List.mem_cons_of_mem fp hf)
        exact ⟨b', hb', by rw [hm1]; exact hst'⟩)
    refine ⟨st', ?_, ?_, ?_, ?_, ?_, ?_⟩
    · unfold runFiles
      rw [hs]
      exact hrun
    · rw [hm2, hm1]
    · rw [hsk2, hsk1]
      simp only [List.length_cons]
      omega
    · rw [hw2, hw1]
    · rw [hsrc2, hsrc1]
    · rw [hwc2, hwc1]

/-- The source object `_resolveSource` builds for an existing, non-empty
source directory. -/
def srcObjOf (s : String) (files : List String) : SourceObj :=
  { root := s, source := s, resolved := s, files := files }

/-- The target object `_resolveTarget` builds for an existing target
directory. -/
def tgtObjOf (t : String) : TargetObj :=
  { target := t, resolved := t, fsExists := true, created := none }

/-- With fingerprinting on, `_loadMap` always resolves the hashmap path to
`source.root + '/' + mapName`. -/
theorem loadMap_path (cfg : Config) (env : Env) (source : SourceObj) (m0 : JsMap)
    (hm : Option String) (m1 : JsMap) (log0 : List JsErr)
    (hmap : cfg.map = true)
    (h : loadMap cfg env source m0 = .ok (hm, m1, log0)) :
    hm = some (pathJoin source.root cfg.mapName) := by
  unfold loadMap at h
  rw [hmap] at h
  dsimp only at h
  rw [if_pos rfl] at h
  repeat' split at h
  all_goals first
    | exact (Except.noConfusion h)
    | exact ((Prod.mk.injEq _ _ _ _).mp (Except.ok.inj h)).1.symm

/-- C6: Running twice with fingerprinting enabled and no source changes
yields `written == 0` and `skipped == sources` on the second run.  The
first run persists its final map at `source.root + '/' + mapName`
(conjunct 1); when the second run finds that file and reads that map back,
with every source file unchanged (same bytes, same hash function, files
sharing a hashmap key having equal content), the second run succeeds with
zero writes — not even a write call — and skips every one of its
`sources` files. -/
theorem c6_idempotence (cfg : Config) (env1 env2 : Env) (s t : String)
    (cb1 cb2 : Option Cb) (m0 m0' : JsMap) (r1 : RunResult)
    (hmap : cfg.map = true) (hsquash : cfg.squash = false)
    (hex1 : env1.fsExists s = true) (hdir1 : env1.isDir s = true)
    (hext1 : env1.fsExists t = true) (hdirt1 : env1.isDir t = true)
    (hex2 : env2.fsExists s = true) (hdir2 : env2.isDir s = true)
    (hext2 : env2.fsExists t = true) (hdirt2 : env2.isDir t = true)
    (hfl : env2.fileList s = env1.fileList s)
    (hreads : ∀ f ∈ env1.fileList s, ∃ b, env1.read f = .ok b)
    (hread2 : ∀ f ∈ env1.fileList s, env2.read f = env1.read f)
    (hhash : env2.hashFn = env1.hashFn)
    (hcoh : ∀ f g, f ∈ env1.fileList s → g ∈ env1.fileList s →
      mapKey (getFileData f (srcObjOf s (env1.fileList s)) (tgtObjOf t) none) =
        mapKey (getFileData g (srcObjOf s (env1.fileList s)) (tgtObjOf t) none) →
      env1.read f = env1.read g)
    (h1 : run cfg env1 s t cb1 m0 = .ok r1)
    (hmp2 : env2.fsExists (pathJoin s cfg.mapName) = true)
    (hjson2 : env2.readJSON (pathJoin s cfg.mapName) = .ok (some r1.map)) :
    r1.mapWrite = some (pathJoin s cfg.mapName, r1.map) ∧
    ∃ r2, run cfg env2 s t cb2 m0' = .ok r2 ∧
      r2.stats.written = 0 ∧
      r2.stats.skipped = r2.stats.sources ∧
      r2.stats.sources = r1.stats.sources ∧
      r2.writeCalls = [] := by
  -- the source list is nonempty, else the first run would have aborted
  have hne : ¬(env1.fileList s = []) := by
    intro hnil
    have hrsE : resolveSource env1 s = .error (JsErr.base ("Source is empty: " ++ s)) := by
      simp [resolveSource, hex1, hdir1, hnil]
    unfold run at h1
    rw [hrsE] at h1
    exact Except.noConfusion h1
  have hrs1 : resolveSource env1 s = .ok (srcObjOf s (env1.fileList s)) := by
    simp [resolveSource, hex1, hdir1, hne, srcObjOf]
  have hrt1 : resolveTarget env1 t = .ok (tgtObjOf t) := by
    simp [resolveTarget, hext1, hdirt1, tgtObjOf]
  have hrs2 : resolveSource env2 s = .ok (srcObjOf s (env1.fileList s)) := by
    simp [resolveSource, hex2, hdir2, hfl, hne, srcObjOf]
  have hrt2 : resolveTarget env2 t = .ok (tgtObjOf t) := by
    simp [resolveTarget, hext2, hdirt2, tgtObjOf]
  -- decompose the first run
  obtain ⟨source1, target1, hm, m1, log0, stF, hdrs, hdrt, hdlm, hdrf, hr1map, _, _, _,
    hr1wc, _, hr1src, _, hr1w, hr1sk, _, _, _, hr1hm, _, hr1mw⟩ :=
    run_decomp cfg env1 s t cb1 m0 r1 h1
  obtain rfl : source1 = srcObjOf s (env1.fileList s) :=
    Except.ok.inj (hdrs.symm.trans hrs1)
  obtain rfl : target1 = tgtObjOf t := Except.ok.inj (hdrt.symm.trans hrt1)
  have hhm : hm = some (pathJoin s cfg.mapName) :=
    loadMap_path cfg env1 _ m0 hm m1 log0 hmap hdlm
  subst hhm
  -- conjunct 1: the first run persists its final map at the hashmap path
  have hFhm : stF.stats.hashmap = some (pathJoin s cfg.mapName) := by
    obtain ⟨_, _, _, _, hhm', _⟩ :=
      runFiles_shape cfg env1 _ _ cb1 _ _ _ hdrf
    rw [hhm']
    rfl
  have hmw : r1.mapWrite = some (pathJoin s cfg.mapName, r1.map) := by
    rw [hr1mw, hFhm]
    rw [if_pos ⟨hmap, rfl⟩]
    rw [hr1map]
    rfl
  refine ⟨hmw, ?_⟩
  -- coverage: after the first run the map holds every file's hash
  have hcover := runFiles_map_coverage cfg env1 (srcObjOf s (env1.fileList s)) (tgtObjOf t)
    cb1 (env1.fileList s) _ stF hmap hreads hcoh hdrf
  -- the second run loads the persisted map
  have hlm2 : loadMap cfg env2 (srcObjOf s (env1.fileList s)) m0' =
      .ok (some (pathJoin s cfg.mapName), r1.map, []) := by
    simp [loadMap, hmap, hsquash, hmp2, hjson2, srcObjOf]
  -- every file of the second run is a cache hit
  have hpremise : ∀ f ∈ env1.fileList s, ∃ b, env2.read f = .ok b ∧
      mapGet (initState (srcObjOf s (env1.fileList s))
          (some (pathJoin s cfg.mapName)) r1.map []).map
        (mapKey (getFileData f (srcObjOf s (env1.fileList s)) (tgtObjOf t) none)) =
        some (some (env2.hashFn b)) := by
    intro f hf
    obtain ⟨b, hb⟩ := hreads f hf
    refine ⟨b, ?_, ?_⟩
    · rw [hread2 f hf, hb]
    · rw [hhash]
      show mapGet r1.map _ = _
      rw [hr1map]
      exact hcover f hf b hb
  obtain ⟨stG, hG, hGm, hGsk, hGw, hGsrc, hGwc⟩ :=
    runFiles_all_skip cfg env2 (srcObjOf s (env1.fileList s)) (tgtObjOf t) cb2
      (env1.fileList s) _ hmap hpremise
  -- assemble the second run
  obtain ⟨r2, hrun2⟩ : ∃ r2, run cfg env2 s t cb2 m0' = .ok r2 := by
    unfold run
    rw [hrs2]
    dsimp only
    rw [hrt2]
    dsimp only
    rw [hlm2]
    dsimp only
    rw [show (srcObjOf s (env1.fileList s)).files = env1.fileList s from rfl]
    rw [hG]
    exact ⟨_, rfl⟩
  obtain ⟨source2, target2, hm2, m12, log02, st2, hers, hert, helm, herf, _, _, _, _,
    he2wc, _, he2src, _, he2w, he2sk, _, _, _, _, _, _⟩ :=
    run_decomp cfg env2 s t cb2 m0' r2 hrun2
  obtain rfl : source2 = srcObjOf s (env1.fileList s) :=
    Except.ok.inj (hers.symm.trans hrs2)
  obtain rfl : target2 = tgtObjOf t := Except.ok.inj (hert.symm.trans hrt2)
  have htrip := Except.ok.inj (helm.symm.trans hlm2)
  simp only [Prod.mk.injEq] at htrip
  obtain ⟨rfl, rfl, rfl⟩ := htrip
  obtain rfl : st2 = stG := Except.ok.inj (herf.symm.trans hG)
  -- read the counters off the all-skip loop
  refine ⟨r2, hrun2, ?_, ?_, ?_, ?_⟩
  · rw [he2w, hGw]
    rfl
  · rw [he2sk, he2src, hGsk, hGsrc]
    show 0 + (env1.fileList s).length = (env1.fileList s).length
    exact Nat.zero_add _
  · rw [he2src, hGsrc, hr1src]
    obtain ⟨_, _, _, hsrc', _⟩ :=
      runFiles_shape cfg env1 _ _ cb1 _ _ _ hdrf
    rw [hsrc']
    rfl
  · rw [he2wc, hGwc]
    rfl

/-- The hashmap the first run over `baseEnv` finishes with. -/
def c6map : JsMap := [("a.png", some "h2"), ("sub/b.png", some "h1")]

/-- The same file system on the second run: the hashmap file now exists
and reads back `c6map`; everything else is unchanged. -/
def env6b : Env :=
  { baseEnv with
    fsExists := fun p => baseEnv.fsExists p || p == "src/.minify-images.map"
  , readJSON := fun p =>
      if p = "src/.minify-images.map" then .ok (some c6map)
      else .error (JsErr.base ("ENOENT")) }

theorem c6_witness :
    ∃ r2, run cfgLenient env6b "src" "dist" none [] = .ok r2 ∧
      r2.stats.written = 0 ∧ r2.stats.skipped = r2.stats.sources ∧
      r2.stats.sources = 2 ∧ r2.writeCalls = [] := by
  obtain ⟨r1, hr1⟩ : ∃ r1, run cfgLenient baseEnv "src" "dist" none [] = .ok r1 := ⟨_, rfl⟩
  have hm1 : (run cfgLenient baseEnv "src" "dist" none []).toOption.map
      (fun r => r.map) = some c6map := by decide
  rw [hr1] at hm1
  have hrm : r1.map = c6map := Option.some.inj hm1
  have hs1 : (run cfgLenient baseEnv "src" "dist" none []).toOption.map
      (fun r => r.stats.sources) = some 2 := by decide
  rw [hr1] at hs1
  have hsrc1v : r1.stats.sources = 2 := Option.some.inj hs1
  have hlist : baseEnv.fileList "src" = ["src/a.png", "src/sub/b.png"] := rfl
  have hreads : ∀ f ∈ baseEnv.fileList "src", ∃ b, baseEnv.read f = .ok b := by
    intro f hf
    rw [hlist] at hf
    rcases List.mem_cons.mp hf with rfl | hf2
    · exact ⟨[10, 11], rfl⟩
    rcases List.mem_cons.mp hf2 with rfl | hf3
    · exact ⟨[12], rfl⟩
    · exact absurd hf3 (List.not_mem_nil f)
  have hcoh : ∀ f g, f ∈ baseEnv.fileList "src" → g ∈ baseEnv.fileList "src" →
      mapKey (getFileData f (srcObjOf "src" (baseEnv.fileList "src")) (tgtObjOf "dist") none) =
        mapKey (getFileData g (srcObjOf "src" (baseEnv.fileList "src")) (tgtObjOf "dist") none) →
      baseEnv.read f = baseEnv.read g := by
    intro f g hf hg hk
    rw [hlist] at hf hg
    rcases List.mem_cons.mp hf with rfl | hf2
    · rcases List.mem_cons.mp hg with rfl | hg2
      · rfl
      rcases List.mem_cons.mp hg2 with rfl | hg3
      · exact absurd hk (by decide)
      · exact absurd hg3 (List.not_mem_nil g)
    rcases List.mem_cons.mp hf2 with rfl | hf3
    · rcases List.mem_cons.mp hg with rfl | hg2
      · exact absurd hk (by decide)
      rcases List.mem_cons.mp hg2 with rfl | hg3
      · rfl
      · exact absurd hg3 (List.not_mem_nil g)
    · exact absurd hf3 (List.not_mem_nil f)
  have hjson2 : env6b.readJSON (pathJoin "src" cfgLenient.mapName) = .ok (some r1.map) := by
    rw [hrm]
    rfl
  obtain ⟨-, r2, hrun2, hw, hsk, hsrc, hwc⟩ :=
    c6_idempotence cfgLenient baseEnv env6b "src" "dist" none none [] [] r1
      rfl rfl rfl rfl rfl rfl rfl rfl rfl rfl rfl hreads (fun f _ => rfl) rfl hcoh hr1
      rfl hjson2
  exact ⟨r2, hrun2, hw, hsk, by rw [hsrc, hsrc1v], hwc⟩

end MinifyImages